import Mathlib

/-
  Verification development for a Magic-the-Gathering-like rules engine
  written in Rust.  The definitions below are a shallow embedding of the
  engine's current snapshot (src/mana.rs, src/turn.rs, src/card.rs,
  src/abilities.rs, src/action.rs):

  * machine integers are embedded as Nat (u8/u16/usize) or Int (i16), with
    explicit wrap-around modelling only where the source performs an `as`
    cast between integer widths;
  * IndexMap / IndexSet are embedded as insertion-ordered association
    lists / duplicate-free lists with insert-or-replace semantics;
  * functions taking the game state by mutable reference are embedded in
    state-passing style, returning the updated Game next to their result;
  * functions that can panic are embedded with an Option result, none
    standing for the aborted execution.

  Purely cosmetic card fields that no embedded operation ever reads
  (display name, creature subtypes) are omitted.
-/

namespace Magic

/-! ## Association-list helpers (IndexMap / IndexSet embedding) -/

/-- Lookup in an insertion-ordered association list (IndexMap::get). -/
def lookupPair {κ α : Type} [DecidableEq κ] (m : List (κ × α)) (k : κ) : Option α :=
  (m.find? (fun p => p.1 = k)).map (fun p => p.2)

/-- IndexMap::insert: replace the value at an existing key in place,
    otherwise append the binding at the end. -/
def insertPair {κ α : Type} [DecidableEq κ] (m : List (κ × α)) (k : κ) (v : α) :
    List (κ × α) :=
  if m.any (fun p => p.1 = k) then
    m.map (fun p => if p.1 = k then (k, v) else p)
  else
    m ++ [(k, v)]

/-- IndexSet::insert: append if absent. -/
def insertUniq (l : List Nat) (k : Nat) : List Nat :=
  if l.contains k then l else l ++ [k]

/-! ## Mana (src/mana.rs) -/

inductive Color : Type where
  | colorless
  | white
  | blue
  | black
  | red
  | green
  | any
deriving DecidableEq, Repr

/-- The seven mana quantities; each field is a u8 in the source, embedded
    as Nat (the functions below never overflow a u8 on u8-ranged input). -/
structure Mana : Type where
  red : Nat
  white : Nat
  blue : Nat
  black : Nat
  green : Nat
  colorless : Nat
  any : Nat
deriving DecidableEq, Repr

def Mana.new : Mana := ⟨0, 0, 0, 0, 0, 0, 0⟩

def Mana.set (m : Mana) (color : Color) (amount : Nat) : Mana :=
  match color with
  | .colorless => { m with colorless := amount }
  | .white => { m with white := amount }
  | .blue => { m with blue := amount }
  | .black => { m with black := amount }
  | .red => { m with red := amount }
  | .green => { m with green := amount }
  | .any => { m with any := amount }

def Mana.get (m : Mana) (color : Color) : Nat :=
  match color with
  | .colorless => m.colorless
  | .white => m.white
  | .blue => m.blue
  | .black => m.black
  | .red => m.red
  | .green => m.green
  | .any => m.any

def Mana.has (m : Mana) (color : Color) : Bool :=
  m.get color > 0

/-- Mana::iter: the positive components, in the source's push order
    (white, red, green, blue, black, colorless); `any` is never pushed. -/
def Mana.iter (m : Mana) : List (Color × Nat) :=
  (if m.white > 0 then [(Color.white, m.white)] else []) ++
  (if m.red > 0 then [(Color.red, m.red)] else []) ++
  (if m.green > 0 then [(Color.green, m.green)] else []) ++
  (if m.blue > 0 then [(Color.blue, m.blue)] else []) ++
  (if m.black > 0 then [(Color.black, m.black)] else []) ++
  (if m.colorless > 0 then [(Color.colorless, m.colorless)] else [])

/-- Converted mana cost. -/
def Mana.cmc (m : Mana) : Nat :=
  (m.iter.map (fun p => p.2)).sum

/-- The loop body of Mana::pick_any. -/
def Mana.pickGo : Mana → Nat → List (Color × Nat) → Option Mana
  | _, _, [] => none
  | pick, remainder, (color, current) :: rest =>
    if current = 0 then
      Mana.pickGo pick remainder rest
    else if current > remainder then
      some (pick.set color remainder)
    else
      let pick' := pick.set color current
      let remainder' := remainder - current
      if remainder' = 0 then some pick' else Mana.pickGo pick' remainder' rest

/-- Mana::pick_any: picks `amount` of available mana greedily in iter
    order, returning the picked selection if the pool suffices. -/
def Mana.pick_any (m : Mana) (amount : Nat) : Option Mana :=
  Mana.pickGo Mana.new amount m.iter

/-- The loop body of Mana::enough, folding the cost's iter list over the
    mutable remainder.  The colorless/any arm returns early through
    pick_any when the colorless reserve is short. -/
def Mana.enoughGo : Mana → List (Color × Nat) → Bool
  | _, [] => true
  | remainder, (color, amount) :: rest =>
    match color with
    | .colorless | .any =>
      let colorless := remainder.get .colorless
      if colorless ≥ amount then
        Mana.enoughGo (remainder.set .colorless (colorless - amount)) rest
      else
        ((remainder.set .colorless 0).pick_any (amount - colorless)).isSome
    | _ =>
      let current := remainder.get color
      if current ≥ amount then
        Mana.enoughGo (remainder.set color (current - amount)) rest
      else
        false

/-- Mana::enough: whether this pool suffices to pay the given cost. -/
def Mana.enough (m mana : Mana) : Bool :=
  Mana.enoughGo m mana.iter

/-- u8 saturating_add. -/
def satAdd8 (a b : Nat) : Nat := min (a + b) 255

/-- Mana += (AddAssign): folds the right-hand side's iter list, so the
    `any` component of the right-hand side is never added. -/
def Mana.add (m rhs : Mana) : Mana :=
  rhs.iter.foldl (fun acc p => acc.set p.1 (satAdd8 (acc.get p.1) p.2)) m

/-- Mana -= (SubAssign); Nat subtraction is exactly u8 saturating_sub. -/
def Mana.sub (m rhs : Mana) : Mana :=
  rhs.iter.foldl (fun acc p => acc.set p.1 (acc.get p.1 - p.2)) m

/-- Mana::from(&str): the regex (\d*)([*]*)([WUBRG]*) always matches at
    the start of the string, so the parse is: leading digits (colorless,
    skipped when empty or above u8 range), then stars (any), then a run
    of W/U/B/R/G symbols each adding one of its color. -/
def Mana.fromString (s : String) : Mana :=
  let cs := s.toList
  let digits := cs.takeWhile (fun ch => ch.isDigit)
  let rest1 := cs.dropWhile (fun ch => ch.isDigit)
  let stars := rest1.takeWhile (fun ch => ch = '*')
  let rest2 := rest1.dropWhile (fun ch => ch = '*')
  let colored := rest2.takeWhile (fun ch =>
    ch = 'W' ∨ ch = 'U' ∨ ch = 'B' ∨ ch = 'R' ∨ ch = 'G')
  let colorlessVal := digits.foldl (fun n ch => n * 10 + (ch.toNat - 48)) 0
  let m0 := { Mana.new with any := stars.length }
  let m1 := if digits ≠ [] ∧ colorlessVal ≤ 255 then m0.set .colorless colorlessVal else m0
  colored.foldl (fun m ch =>
    let c : Option Color :=
      if ch = 'R' then some .red
      else if ch = 'W' then some .white
      else if ch = 'U' then some .blue
      else if ch = 'B' then some .black
      else if ch = 'G' then some .green
      else if ch = 'C' then some .colorless
      else none
    match c with
    | some color => m.set color (m.get color + 1)
    | none => m) m1

/-! ## Spec-side mana-payment predicates (for claim C1) -/

/-- The pool covers every colored component of the cost in kind. -/
def Mana.paysColoredInKind (pool cost : Mana) : Prop :=
  cost.white ≤ pool.white ∧ cost.blue ≤ pool.blue ∧ cost.black ≤ pool.black ∧
  cost.red ≤ pool.red ∧ cost.green ≤ pool.green

/-- The colored mana left over after paying every colored component. -/
def Mana.surplus (pool cost : Mana) : Nat :=
  (pool.white - cost.white) + (pool.red - cost.red) + (pool.green - cost.green) +
  (pool.blue - cost.blue) + (pool.black - cost.black)

/-- The claim's payment predicate, written from the spec's words: every
    colored component is paid in kind and every colorless or wildcard
    component is paid from the remaining surplus mana of any colors. -/
def Mana.canPayClaim (pool cost : Mana) : Prop :=
  Mana.paysColoredInKind pool cost ∧
  cost.colorless + cost.any ≤ pool.colorless + Mana.surplus pool cost

instance (pool cost : Mana) : Decidable (Mana.canPayClaim pool cost) := by
  unfold Mana.canPayClaim Mana.paysColoredInKind
  infer_instance

/-- The cost components with every (possibly zero) field listed. -/
def Mana.iterFull (m : Mana) : List (Color × Nat) :=
  [(Color.white, m.white), (Color.red, m.red), (Color.green, m.green),
   (Color.blue, m.blue), (Color.black, m.black), (Color.colorless, m.colorless)]

def sumAmounts (l : List (Color × Nat)) : Nat :=
  (l.map (fun p => p.2)).sum

/-! ## Core enumerations (src/turn.rs, src/card.rs, src/abilities.rs) -/

abbrev ObjectId : Type := Nat

inductive Step : Type where
  | untap
  | upkeep
  | draw
  | precombat
  | combatBegin
  | declareAttackers
  | declareBlockers
  | combatDamage
  | combatEnd
  | postcombat
  | endStep
  | cleanup
deriving DecidableEq, Repr

/-- Step::main: the two main phases. -/
def Step.main (s : Step) : Bool :=
  s = Step.precombat || s = Step.postcombat

inductive Zone : Type where
  | noZone
  | battlefield
  | graveyard
  | library
  | hand
  | stack
deriving DecidableEq, Repr

inductive CardType : Type where
  | land
  | artifact
  | enchantment
  | creature
  | instant
  | sorcery
deriving DecidableEq, Repr

inductive StaticAbility : Type where
  | noAbility
  | haste
  | flying
  | reach
  | vigilance
  | defender
  | firstStrike
  | doubleStrike
  | trample
  | deathtouch
deriving DecidableEq, Repr

inductive AttackType : Type where
  | regular
  | firstStrike
deriving DecidableEq, Repr

inductive GameStatus : Type where
  | play
  | lose (player : ObjectId)
deriving DecidableEq, Repr

/-! ## Value (current/default pair) -/

/-- Modelled from the spec: Value is a (current, default) pair used for
    any quantity that can be temporarily modified and later restored;
    reset restores current to default.  Its definition lives in the
    current snapshot's game.rs, which is absent from src/ (turn.rs,
    card.rs and abilities.rs import it as game::Value). -/
structure Value (α : Type) : Type where
  current : α
  default : α
deriving DecidableEq, Repr

def Value.new {α : Type} (v : α) : Value α := ⟨v, v⟩

def Value.reset {α : Type} (v : Value α) : Value α := { v with current := v.default }

/-! ## Requirement vocabulary (src/abilities.rs) -/

inductive Target : Type where
  | noTarget
  | source
  | owner
  | player
  | creature
  | anyOf (options : List Target)
deriving Repr

mutual

def Target.beq : Target → Target → Bool
  | .noTarget, .noTarget => true
  | .source, .source => true
  | .owner, .owner => true
  | .player, .player => true
  | .creature, .creature => true
  | .anyOf l1, .anyOf l2 => Target.beqList l1 l2
  | _, _ => false

def Target.beqList : List Target → List Target → Bool
  | [], [] => true
  | a :: as, b :: bs => Target.beq a b && Target.beqList as bs
  | _, _ => false

end

mutual

theorem Target.beq_iff_target : ∀ (a b : Target), Target.beq a b = true ↔ a = b
  | .noTarget, b => by cases b <;> simp [Target.beq]
  | .source, b => by cases b <;> simp [Target.beq]
  | .owner, b => by cases b <;> simp [Target.beq]
  | .player, b => by cases b <;> simp [Target.beq]
  | .creature, b => by cases b <;> simp [Target.beq]
  | .anyOf l1, b => by
      cases b <;> simp only [Target.beq, Bool.false_eq_true, false_iff, reduceCtorEq,
        not_false_iff, Target.anyOf.injEq]
      exact Target.beqList_iff_target l1 _

theorem Target.beqList_iff_target : ∀ (l1 l2 : List Target), Target.beqList l1 l2 = true ↔ l1 = l2
  | [], l2 => by cases l2 <;> simp [Target.beqList]
  | a :: as, l2 => by
      cases l2 with
      | nil => simp [Target.beqList]
      | cons b bs =>
        simp only [Target.beqList, Bool.and_eq_true, List.cons.injEq]
        rw [Target.beq_iff_target a b, Target.beqList_iff_target as bs]

end

instance : DecidableEq Target := fun a b => decidable_of_iff _ (Target.beq_iff_target a b)

inductive Cost : Type where
  | noCost
  | mana (s : String)
  | tap (t : Target)
  | sacrifice (t : Target)
  | and (costs : List Cost)
deriving Repr

mutual

def Cost.beq : Cost → Cost → Bool
  | .noCost, .noCost => true
  | .mana s1, .mana s2 => s1 = s2
  | .tap t1, .tap t2 => t1 = t2
  | .sacrifice t1, .sacrifice t2 => t1 = t2
  | .and l1, .and l2 => Cost.beqList l1 l2
  | _, _ => false

def Cost.beqList : List Cost → List Cost → Bool
  | [], [] => true
  | a :: as, b :: bs => Cost.beq a b && Cost.beqList as bs
  | _, _ => false

end

mutual

theorem Cost.beq_iff_cost : ∀ (a b : Cost), Cost.beq a b = true ↔ a = b
  | .noCost, b => by cases b <;> simp [Cost.beq]
  | .mana s1, b => by cases b <;> simp [Cost.beq]
  | .tap t1, b => by cases b <;> simp [Cost.beq]
  | .sacrifice t1, b => by cases b <;> simp [Cost.beq]
  | .and l1, b => by
      cases b <;> simp only [Cost.beq, Bool.false_eq_true, false_iff, reduceCtorEq,
        not_false_iff, Cost.and.injEq]
      exact Cost.beqList_iff_cost l1 _

theorem Cost.beqList_iff_cost : ∀ (l1 l2 : List Cost), Cost.beqList l1 l2 = true ↔ l1 = l2
  | [], l2 => by cases l2 <;> simp [Cost.beqList]
  | a :: as, l2 => by
      cases l2 with
      | nil => simp [Cost.beqList]
      | cons b bs =>
        simp only [Cost.beqList, Bool.and_eq_true, List.cons.injEq]
        rw [Cost.beq_iff_cost a b, Cost.beqList_iff_cost as bs]

end

instance : DecidableEq Cost := fun a b => decidable_of_iff _ (Cost.beq_iff_cost a b)

inductive Effect : Type where
  | noEffect
  | mana (m : Mana)
  | damage (amount : Nat)
  | discard (count : Nat)
  | draw (count : Nat)
  | and (effects : List Effect)
deriving Repr

mutual

def Effect.beq : Effect → Effect → Bool
  | .noEffect, .noEffect => true
  | .mana m1, .mana m2 => m1 = m2
  | .damage a1, .damage a2 => a1 = a2
  | .discard a1, .discard a2 => a1 = a2
  | .draw a1, .draw a2 => a1 = a2
  | .and l1, .and l2 => Effect.beqList l1 l2
  | _, _ => false

def Effect.beqList : List Effect → List Effect → Bool
  | [], [] => true
  | a :: as, b :: bs => Effect.beq a b && Effect.beqList as bs
  | _, _ => false

end

mutual

theorem Effect.beq_iff_effect : ∀ (a b : Effect), Effect.beq a b = true ↔ a = b
  | .noEffect, b => by cases b <;> simp [Effect.beq]
  | .mana m1, b => by cases b <;> simp [Effect.beq]
  | .damage a1, b => by cases b <;> simp [Effect.beq]
  | .discard a1, b => by cases b <;> simp [Effect.beq]
  | .draw a1, b => by cases b <;> simp [Effect.beq]
  | .and l1, b => by
      cases b <;> simp only [Effect.beq, Bool.false_eq_true, false_iff, reduceCtorEq,
        not_false_iff, Effect.and.injEq]
      exact Effect.beqList_iff_effect l1 _

theorem Effect.beqList_iff_effect : ∀ (l1 l2 : List Effect), Effect.beqList l1 l2 = true ↔ l1 = l2
  | [], l2 => by cases l2 <;> simp [Effect.beqList]
  | a :: as, l2 => by
      cases l2 with
      | nil => simp [Effect.beqList]
      | cons b bs =>
        simp only [Effect.beqList, Bool.and_eq_true, List.cons.injEq]
        rw [Effect.beq_iff_effect a b, Effect.beqList_iff_effect as bs]

end

instance : DecidableEq Effect := fun a b => decidable_of_iff _ (Effect.beq_iff_effect a b)

inductive Condition : Type where
  | tap (t : Target)
  | untap (t : Target)
  | draw
  | phase (s : Step)
deriving DecidableEq, Repr

structure PlayAbility : Type where
  effect : Effect
  target : Target
deriving DecidableEq, Repr

structure ActivatedAbility : Type where
  cost : Cost
  effect : Effect
  target : Target
deriving DecidableEq, Repr

structure TriggeredAbility : Type where
  condition : Condition
  effect : Effect
  target : Target
deriving DecidableEq, Repr

/-! ## Choices and actions (src/action.rs) -/

inductive Choice : Type where
  | noChoice
  | mana (m : Mana)
  | player (id : ObjectId)
  | card (id : ObjectId)
  | and (choices : List Choice)
deriving Repr

mutual

def Choice.beq : Choice → Choice → Bool
  | .noChoice, .noChoice => true
  | .mana m1, .mana m2 => m1 = m2
  | .player a1, .player a2 => a1 = a2
  | .card a1, .card a2 => a1 = a2
  | .and l1, .and l2 => Choice.beqList l1 l2
  | _, _ => false

def Choice.beqList : List Choice → List Choice → Bool
  | [], [] => true
  | a :: as, b :: bs => Choice.beq a b && Choice.beqList as bs
  | _, _ => false

end

mutual

theorem Choice.beq_iff_choice : ∀ (a b : Choice), Choice.beq a b = true ↔ a = b
  | .noChoice, b => by cases b <;> simp [Choice.beq]
  | .mana m1, b => by cases b <;> simp [Choice.beq]
  | .player a1, b => by cases b <;> simp [Choice.beq]
  | .card a1, b => by cases b <;> simp [Choice.beq]
  | .and l1, b => by
      cases b <;> simp only [Choice.beq, Bool.false_eq_true, false_iff, reduceCtorEq,
        not_false_iff, Choice.and.injEq]
      exact Choice.beqList_iff_choice l1 _

theorem Choice.beqList_iff_choice : ∀ (l1 l2 : List Choice), Choice.beqList l1 l2 = true ↔ l1 = l2
  | [], l2 => by cases l2 <;> simp [Choice.beqList]
  | a :: as, l2 => by
      cases l2 with
      | nil => simp [Choice.beqList]
      | cons b bs =>
        simp only [Choice.beqList, Bool.and_eq_true, List.cons.injEq]
        rw [Choice.beq_iff_choice a b, Choice.beqList_iff_choice as bs]

end

instance : DecidableEq Choice := fun a b => decidable_of_iff _ (Choice.beq_iff_choice a b)

structure Required : Type where
  cost : Cost
  target : Target
  effect : Effect
deriving DecidableEq, Repr

structure Choices : Type where
  cost : Choice
  target : Choice
  effect : Choice
deriving DecidableEq, Repr

structure Action : Type where
  player_id : ObjectId
  card_id : ObjectId
  required : Required
  choices : Choices
deriving DecidableEq, Repr

def Action.new (player_id card_id : ObjectId) : Action :=
  { player_id, card_id,
    required := { cost := .noCost, target := .noTarget, effect := .noEffect },
    choices := { cost := .noChoice, target := .noChoice, effect := .noChoice } }

def Action.set_required_cost (a : Action) (cost : Cost) : Action :=
  { a with required := { a.required with cost } }

/-- set_required_target seeds the target choice with the actor when the
    requirement is Owner. -/
def Action.set_required_target (a : Action) (target : Target) : Action :=
  let a :=
    match target with
    | .owner => { a with choices := { a.choices with target := .player a.player_id } }
    | _ => a
  { a with required := { a.required with target } }

def Action.set_required_effect (a : Action) (effect : Effect) : Action :=
  { a with required := { a.required with effect } }

/-! ## Cards (src/card.rs) -/

structure CardState : Type where
  power : Value Int
  toughness : Value Int
  summoning_sickness : Value Bool
  tapped : Value Bool
deriving DecidableEq, Repr

def CardState.default : CardState :=
  { power := ⟨0, 0⟩, toughness := ⟨0, 0⟩,
    summoning_sickness := ⟨false, false⟩, tapped := ⟨false, false⟩ }

/-- Restores power and toughness to their default values. -/
def CardState.restore (s : CardState) : CardState :=
  { s with power := s.power.reset, toughness := s.toughness.reset }

/-- Resets the whole state to its defaults. -/
def CardState.reset (s : CardState) : CardState :=
  { power := s.power.reset, toughness := s.toughness.reset,
    summoning_sickness := s.summoning_sickness.reset, tapped := s.tapped.reset }

structure Card : Type where
  id : ObjectId
  owner_id : ObjectId
  kind : CardType
  cost : Cost
  zone : Zone
  play_ability : Option PlayAbility
  activated_abilities : List ActivatedAbility
  triggered_abilities : List TriggeredAbility
  static_abilities : List StaticAbility
  state : CardState
deriving DecidableEq, Repr

def Card.new (owner_id : ObjectId) : Card :=
  { id := 0, owner_id, kind := .land, cost := .noCost, zone := .noZone,
    play_ability := none, activated_abilities := [], triggered_abilities := [],
    static_abilities := [], state := CardState.default }

def Card.new_land (owner_id : ObjectId) : Card := Card.new owner_id

def Card.new_creature (owner_id : ObjectId) (power toughness : Int) : Card :=
  { Card.new owner_id with
      kind := .creature,
      state := { CardState.default with
                   power := Value.new power, toughness := Value.new toughness,
                   summoning_sickness := Value.new true } }

def Card.new_artifact (owner_id : ObjectId) : Card :=
  { Card.new owner_id with kind := .artifact }

def Card.new_instant (owner_id : ObjectId) : Card :=
  { Card.new owner_id with kind := .instant }

def Card.new_sorcery (owner_id : ObjectId) : Card :=
  { Card.new owner_id with kind := .sorcery }

/-- Card::tap, returning whether the card was actually tapped. -/
def Card.tapOp (c : Card) : Bool × Card :=
  if c.zone = Zone.battlefield ∧ c.state.tapped.current = false then
    (true, { c with state := { c.state with tapped := { c.state.tapped with current := true } } })
  else
    (false, c)

/-! ## Players (current snapshot) -/

/-- Modelled from the spec: the current snapshot's Player record lives in
    its game.rs, absent from src/ (the game.rs present is an older
    snapshot).  Fields and their types are fixed by the uses in turn.rs
    and abilities.rs (life, mana pool, the four ordered zone sets, the
    per-turn land limit as a resettable Value, the hand size limit); the
    land limit defaults to one per turn per spec section 4.1. -/
structure Player : Type where
  id : ObjectId
  life : Int
  mana : Mana
  library : List ObjectId
  hand : List ObjectId
  battlefield : List ObjectId
  graveyard : List ObjectId
  land_limit : Value Nat
  hand_size_limit : Value Nat
deriving DecidableEq, Repr

def Player.new : Player :=
  { id := 0, life := 20, mana := Mana.new, library := [], hand := [],
    battlefield := [], graveyard := [], land_limit := Value.new 1,
    hand_size_limit := Value.new 7 }

/-- zones_mut: update the player's four zone lists so that the card sits
    exactly in the list matching the target zone (IndexSet insert) and is
    removed from every other one (shift_remove). -/
def Player.setZones (p : Player) (cid : ObjectId) (zone : Zone) : Player :=
  let upd := fun (this : Zone) (l : List ObjectId) =>
    if this = zone then insertUniq l cid else l.erase cid
  { p with library := upd .library p.library, hand := upd .hand p.hand,
           battlefield := upd .battlefield p.battlefield,
           graveyard := upd .graveyard p.graveyard }

/-! ## Turn, priority and combat state (src/turn.rs) -/

structure Priority : Type where
  player_id : ObjectId
  passes : List ObjectId
deriving DecidableEq, Repr

def Priority.new (active_player : ObjectId) : Priority :=
  { player_id := active_player, passes := [] }

/-- Priority::pass: record the current holder as passed and hand priority
    to the given next player. -/
def Priority.pass (pr : Priority) (next_player : ObjectId) : Priority :=
  { player_id := next_player, passes := insertUniq pr.passes pr.player_id }

def Priority.passed (pr : Priority) (player_id : ObjectId) : Bool :=
  pr.passes.contains player_id

structure Attack : Type where
  power : Value Int
  assignments : List (ObjectId × Int)
deriving DecidableEq, Repr

def Attack.new (power : Int) : Attack :=
  { power := Value.new power, assignments := [] }

structure Attacker : Type where
  id : ObjectId
  target : ObjectId
  attacks : List (AttackType × Attack)
  blockers : List ObjectId
  blocked : Bool
deriving DecidableEq, Repr

structure Combat : Type where
  attackers : List (ObjectId × Attacker)
  blockers_toughness : List (ObjectId × Int)
deriving DecidableEq, Repr

def Combat.new : Combat := { attackers := [], blockers_toughness := [] }

def Combat.get_attackers (c : Combat) : List ObjectId :=
  c.attackers.map (fun p => p.1)

def Combat.get_blockers (c : Combat) : List ObjectId :=
  (c.attackers.map (fun p => p.2.blockers)).flatten

structure Turn : Type where
  step : Step
  priority : Option Priority
  combat : Combat
  active_player : ObjectId
  lands_played : Nat
deriving DecidableEq, Repr

def Turn.new (player_id : ObjectId) : Turn :=
  { step := .untap, priority := none, combat := Combat.new,
    active_player := player_id, lands_played := 0 }

/-! ## Stack entries and resolution protocol types (src/abilities.rs) -/

inductive ResolveKind : Type where
  | spell (card : ObjectId)
  | ability
deriving DecidableEq, Repr

structure Resolve : Type where
  effect : Effect
  action : Action
  player_id : ObjectId
  kind : ResolveKind
deriving DecidableEq, Repr

structure ResolveChoice : Type where
  choice : Choice
  player_id : ObjectId
  effect : Effect
deriving DecidableEq, Repr

def ResolveChoice.empty : ResolveChoice :=
  { choice := .noChoice, player_id := 0, effect := .noEffect }

inductive ResolveError : Type where
  | emptyStack
  | invalidChoice
  | invalidTarget
  | unknownEffect
  | unknownActionOwner
deriving DecidableEq, Repr

/-! ## The game state (current snapshot's game.rs, reconstructed) -/

/-- Modelled from the spec: the current snapshot's Game record (its
    game.rs is absent from src/).  Field set fixed by the uses in
    turn.rs/abilities.rs/card.rs: the live Turn, the game status, the
    players, the card registry (id-keyed, insertion ordered), the LIFO
    waiting stack of Resolve entries and the single currently-resolving
    slot (spec sections 3 and 4.3). -/
structure Game : Type where
  turn : Turn
  status : GameStatus
  players : List Player
  cards : List (ObjectId × Card)
  stack : List Resolve
  resolve : Option Resolve
  uid : ObjectId
deriving DecidableEq, Repr

def Game.get_card (g : Game) (card_id : ObjectId) : Option Card :=
  lookupPair g.cards card_id

def Game.setCard (g : Game) (card_id : ObjectId) (c : Card) : Game :=
  { g with cards := insertPair g.cards card_id c }

def Game.get_player (g : Game) (player_id : ObjectId) : Option Player :=
  g.players.find? (fun p => p.id = player_id)

def Game.setPlayer (g : Game) (player_id : ObjectId) (p : Player) : Game :=
  { g with players := g.players.map (fun q => if q.id = player_id then p else q) }

def Game.get_player_ids (g : Game) : List ObjectId :=
  g.players.map (fun p => p.id)

/-- Modelled from the spec: the next player in turn order after the given
    one, cycling through the players in seating order (spec section 4.1,
    "Passing priority advances it to the next player"). -/
def Game.get_next_player (g : Game) (player_id : ObjectId) : ObjectId :=
  match g.players.findIdx? (fun p => p.id = player_id) with
  | some i => ((g.players.get? ((i + 1) % g.players.length)).map (fun p => p.id)).getD player_id
  | none => player_id

def Game.pushStack (g : Game) (entry : Resolve) : Game :=
  { g with stack := g.stack ++ [entry] }

def Game.btGet (g : Game) (blocker : ObjectId) : Int :=
  (lookupPair g.turn.combat.blockers_toughness blocker).getD 0

def Game.btInsert (g : Game) (blocker : ObjectId) (v : Int) : Game :=
  { g with turn.combat.blockers_toughness :=
      insertPair g.turn.combat.blockers_toughness blocker v }

def Game.getAttacker (g : Game) (attacker_id : ObjectId) : Option Attacker :=
  lookupPair g.turn.combat.attackers attacker_id

def Game.setAttacker (g : Game) (attacker_id : ObjectId) (atk : Attacker) : Game :=
  { g with turn.combat.attackers :=
      insertPair g.turn.combat.attackers attacker_id atk }

/-! ## Integer casts (Rust `as` between i16 and u16) -/

/-- i16 value reinterpreted as u16 (`x as u16`). -/
def i16_as_u16 (x : Int) : Nat := (x % 65536).toNat

/-- u16 value reinterpreted as i16 (`x as i16`). -/
def u16_as_i16 (n : Nat) : Int :=
  if n % 65536 < 32768 then ((n % 65536 : Nat) : Int) else ((n % 65536 : Nat) : Int) - 65536

/-- i16 saturating_sub. -/
def i16_saturating_sub (a b : Int) : Int :=
  max (-32768) (min 32767 (a - b))


/-! ## Events (current snapshot's events.rs, reconstructed) -/

structure CardEvent : Type where
  owner : ObjectId
  source : Option ObjectId
  card : ObjectId
deriving DecidableEq, Repr

structure PhaseEvent : Type where
  owner : ObjectId
  phase : Step
deriving DecidableEq, Repr

inductive Event : Type where
  | tap (e : CardEvent)
  | untap (e : CardEvent)
  | draw (e : CardEvent)
  | phase (e : PhaseEvent)
deriving DecidableEq, Repr

/-- Event::meets: whether this event meets a trigger condition. -/
def Event.meets (ev : Event) (condition : Condition) : Bool :=
  match ev with
  | .tap e =>
    match condition with
    | .tap t =>
      match t with
      | .source =>
        match e.source with
        | some source => source = e.card
        | none => false
      | _ => false
    | _ => false
  | .untap e =>
    match condition with
    | .untap t =>
      match t with
      | .source =>
        match e.source with
        | some source => source = e.card
        | none => false
      | _ => false
    | _ => false
  | .draw _ => condition = Condition.draw
  | .phase e =>
    match condition with
    | .phase st => st = e.phase
    | _ => false

/-! ## Zone changes and card-level operations (src/card.rs) -/

/-- apply_static_abilities: re-seed zone-dependent state from the card's
    static abilities (Haste clears summoning sickness). -/
def apply_static_abilities (g : Game) (card_id : ObjectId) : Game :=
  match g.get_card card_id with
  | none => g
  | some card =>
    g.setCard card_id
      (card.static_abilities.foldl (fun c ability =>
        match ability with
        | .haste => { c with state := { c.state with summoning_sickness := Value.new false } }
        | _ => c) card)

/-- change_zone: move a card to the given zone, reset its state, re-apply
    static abilities, and update the owner's per-zone lists. -/
def change_zone (g : Game) (card_id : ObjectId) (zone : Zone) : Game :=
  match g.get_card card_id with
  | none => g
  | some card =>
    let player_id := card.owner_id
    let g1 := g.setCard card_id { card with zone := zone, state := card.state.reset }
    let g2 := apply_static_abilities g1 card_id
    match g2.get_player player_id with
    | none => g2
    | some p => g2.setPlayer player_id (p.setZones card_id zone)

def put_on_battlefield (g : Game) (card_id : ObjectId) : Game :=
  change_zone g card_id .battlefield

def put_on_graveyard (g : Game) (card_id : ObjectId) : Game :=
  change_zone g card_id .graveyard

def put_on_stack (g : Game) (card_id : ObjectId) : Game :=
  change_zone g card_id .stack

def put_in_hand (g : Game) (card_id : ObjectId) : Game :=
  change_zone g card_id .hand

/-- is_alive: a creature with positive current toughness. -/
def is_alive (g : Game) (card_id : ObjectId) : Bool :=
  match g.get_card card_id with
  | some card => decide (card.kind = CardType.creature ∧ card.state.toughness.current > 0)
  | none => false

/-! ## Event dispatch (current snapshot's events.rs, reconstructed) -/

/-- Modelled from the spec: triggered-ability dispatch for the current
    snapshot (the events.rs in src/ belongs to the older game.rs
    snapshot; spec section 6 requires a generic event-dispatch call that
    queues triggered abilities on the waiting stack).  For every card on
    a player's battlefield, each triggered ability whose condition the
    event meets is turned into a seeded Action and pushed on the stack as
    an ability entry. -/
def run_player_triggers (g : Game) (player_id : ObjectId) (ev : Event) : Game :=
  match g.get_player player_id with
  | none => g
  | some player =>
    player.battlefield.foldl (fun g card_id =>
      let triggers :=
        match g.get_card card_id with
        | some card => card.triggered_abilities
        | none => []
      triggers.foldl (fun g trigger =>
        if ev.meets trigger.condition then
          let action :=
            ((Action.new player_id card_id).set_required_target trigger.target).set_required_effect
              trigger.effect
          g.pushStack { effect := trigger.effect, action := action, player_id := player_id,
                        kind := .ability }
        else g) g) g

/-- Modelled from the spec: dispatch an event to the active player's
    triggers first, then every other player's. -/
def dispatch_event (g : Game) (ev : Event) : Game :=
  let g1 := run_player_triggers g g.turn.active_player ev
  g1.get_player_ids.foldl (fun g player_id =>
    if player_id ≠ g.turn.active_player then run_player_triggers g player_id ev else g) g1

/-- tap_card: tap and dispatch the Tap event on success. -/
def tap_card (g : Game) (card_id : ObjectId) (source : Option ObjectId) : Bool × Game :=
  match g.get_card card_id with
  | some card =>
    let (ok, card') := card.tapOp
    if ok then
      let owner_id := card.owner_id
      (true,
        dispatch_event (g.setCard card_id card')
          (Event.tap { owner := owner_id, source := source, card := card_id }))
    else (false, g)
  | none => (false, g)

/-- draw_card (src/card.rs): pop the top of the library into the hand; an
    empty library loses the game for the drawing player. -/
def draw_card (g : Game) (player_id : ObjectId) : Option ObjectId × Game :=
  match g.get_player player_id with
  | none => (none, g)
  | some player =>
    match player.library.getLast? with
    | none => (none, { g with status := .lose player_id })
    | some card_id =>
      let g1 := g.setPlayer player_id { player with library := player.library.dropLast }
      let g2 := change_zone g1 card_id .hand
      let g3 :=
        dispatch_event g2 (Event.draw { owner := player_id, source := none, card := card_id })
      (some card_id, g3)

/-- draw_card (src/deck.rs, used by draw_step): pop the top of the
    library directly into the hand without a state reset; drawing a card
    id with no registered card aborts. -/
def deck_draw_card (g : Game) (player_id : ObjectId) : Option (Option ObjectId × Game) :=
  match g.get_player player_id with
  | none => some (none, g)
  | some player =>
    match player.library.getLast? with
    | none => some (none, { g with status := .lose player_id })
    | some card_id =>
      let g1 := g.setPlayer player_id
        { player with library := player.library.dropLast, hand := insertUniq player.hand card_id }
      match g1.get_card card_id with
      | none => none
      | some card =>
        let g2 := g1.setCard card_id { card with zone := .hand }
        let g3 :=
          dispatch_event g2 (Event.draw { owner := player_id, source := none, card := card_id })
        some (some card_id, g3)

def drawN (g : Game) (player_id : ObjectId) : Nat → Game
  | 0 => g
  | n + 1 => drawN (draw_card g player_id).2 player_id n

/-! ## Damage helpers (src/abilities.rs) -/

def deal_player_damage (g : Game) (player_id : ObjectId) (damage : Nat) : Game :=
  if damage = 0 then g
  else
    match g.get_player player_id with
    | some player =>
      let life' := player.life - u16_as_i16 damage
      let g1 := g.setPlayer player_id { player with life := life' }
      if life' ≤ 0 then { g1 with status := .lose player_id } else g1
    | none => g

def deal_damage (g : Game) (card_id : ObjectId) (damage : Nat) : Game :=
  if damage = 0 then g
  else
    match g.get_card card_id with
    | some card =>
      match card.kind with
      | .creature =>
        let t' := card.state.toughness.current - u16_as_i16 damage
        let g1 := g.setCard card_id
          { card with state :=
              { card.state with toughness := { card.state.toughness with current := t' } } }
        if t' ≤ 0 then put_on_graveyard g1 card_id else g1
      | _ => g
    | none => g

/-! ## Choice validators (src/action.rs) -/

mutual

def Choice.validate_mana : Choice → Mana → Bool
  | .mana m, cost => m.enough cost
  | .and chs, cost => Choice.validateManaList chs cost
  | _, _ => false

def Choice.validateManaList : List Choice → Mana → Bool
  | [], _ => false
  | ch :: rest, cost => ch.validate_mana cost || Choice.validateManaList rest cost

end

mutual

def Choice.validate_card : Choice → ObjectId → Bool
  | .card chosen, card_id => chosen = card_id
  | .and chs, card_id => Choice.validateCardList chs card_id
  | _, _ => false

def Choice.validateCardList : List Choice → ObjectId → Bool
  | [], _ => false
  | ch :: rest, card_id => ch.validate_card card_id || Choice.validateCardList rest card_id

end

mutual

def Choice.validate_player : Choice → Option ObjectId → Bool
  | .player chosen, player_id => player_id = none || player_id = some chosen
  | .and chs, player_id => Choice.validatePlayerList chs player_id
  | _, _ => false

def Choice.validatePlayerList : List Choice → Option ObjectId → Bool
  | [], _ => false
  | ch :: rest, player_id =>
    ch.validate_player player_id || Choice.validatePlayerList rest player_id

end

mutual

def Choice.validate_creature : Choice → Game → Option ObjectId × Game
  | .card card_id, g =>
    (match g.get_card card_id with
     | some c => (if c.kind = CardType.creature then some card_id else none, g)
     | none => (none, g))
  | .and chs, g => Choice.validateCreatureList chs g
  | _, g => (none, g)

def Choice.validateCreatureList : List Choice → Game → Option ObjectId × Game
  | [], g => (none, g)
  | ch :: rest, g =>
    match ch.validate_creature g with
    | (some card_id, g1) => (some card_id, g1)
    | (none, g1) => Choice.validateCreatureList rest g1

end

/-! ## Cost payment (src/action.rs, Action::pay)

Action::pay recurses both through the Cost tree (Cost::And pays each
sub-cost) and through the Choice tree (Choice::And against an atomic cost
tries each sub-choice).  The two nestings never interleave in one call
chain — an atomic cost only dispatches on the choice, and Cost::And keeps
the whole choice — so the source's single recursive function is embedded
as two layered structural recursions: payCostAtomic/payAnyChoice walk the
Choice for a fixed atomic cost, payCost/payAllCosts walk the Cost. -/

mutual

/-- An atomic (Mana/Tap/Sacrifice) cost against a choice. -/
def Action.payCostAtomic (a : Action) (g : Game) (c : Cost) (ch : Choice) : Bool × Game :=
  match ch with
  | .and chs => Action.payAnyChoice a g c chs
  | .mana m =>
    (match c with
     | .mana _ =>
       (match g.get_player a.player_id with
        | some player => (true, g.setPlayer a.player_id { player with mana := player.mana.sub m })
        | none => (false, g))
     | _ => (false, g))
  | .card card_id =>
    (match c with
     | .tap _ => tap_card g card_id (some a.card_id)
     | .sacrifice _ => (true, put_on_graveyard g card_id)
     | _ => (false, g))
  | _ => (false, g)

/-- Choice::And against a single cost: try the sub-choices in order until
    one pays (iter().any with short-circuiting, mutations kept). -/
def Action.payAnyChoice (a : Action) (g : Game) (c : Cost) : List Choice → Bool × Game
  | [] => (false, g)
  | ch :: rest =>
    match Action.payCostAtomic a g c ch with
    | (true, g1) => (true, g1)
    | (false, g1) => Action.payAnyChoice a g1 c rest

end

mutual

def Action.payCost (a : Action) (g : Game) (c : Cost) (ch : Choice) : Bool × Game :=
  match c with
  | .noCost => (true, g)
  | .mana amt => Action.payCostAtomic a g (.mana amt) ch
  | .tap t => Action.payCostAtomic a g (.tap t) ch
  | .sacrifice t => Action.payCostAtomic a g (.sacrifice t) ch
  | .and cs => Action.payAllCosts a g cs ch

/-- Cost::And: pay the sub-costs in order against the same choice until
    one fails (iter().all with short-circuiting, mutations kept). -/
def Action.payAllCosts (a : Action) (g : Game) : List Cost → Choice → Bool × Game
  | [], _ => (true, g)
  | c :: rest, ch =>
    match Action.payCost a g c ch with
    | (true, g1) => Action.payAllCosts a g1 rest ch
    | (false, g1) => (false, g1)

end

def Action.pay (a : Action) (g : Game) : Bool × Game :=
  Action.payCost a g a.required.cost a.choices.cost

/-! ## Action validation (src/action.rs, Action::valid), state-threaded -/

mutual

def Action.valid_cost (a : Action) (g : Game) (c : Cost) : Bool × Game :=
  match c with
  | .noCost => (true, g)
  | .mana s => (a.choices.cost.validate_mana (Mana.fromString s), g)
  | .tap t =>
    match t with
    | .source =>
      if a.choices.cost.validate_card a.card_id = false then (false, g)
      else
        ((match g.get_card a.card_id with
          | some card =>
            decide (card.kind ≠ CardType.creature) || !card.state.summoning_sickness.current
          | none => true), g)
    | _ => (true, g)
  | .sacrifice t =>
    match t with
    | .source => (a.choices.cost.validate_card a.card_id, g)
    | .creature =>
      match a.choices.cost.validate_creature g with
      | (some creature_id, g1) =>
        ((match g1.get_card creature_id with
          | some card => decide (card.zone = Zone.battlefield ∧ card.owner_id = a.player_id)
          | none => false), g1)
      | (none, g1) => (false, g1)
    | _ => (false, g)
  | .and cs => Action.validCostList a g cs

def Action.validCostList (a : Action) (g : Game) : List Cost → Bool × Game
  | [] => (true, g)
  | c :: rest =>
    match Action.valid_cost a g c with
    | (true, g1) => Action.validCostList a g1 rest
    | (false, g1) => (false, g1)

end

mutual

def Action.valid_target (a : Action) (g : Game) (t : Target) : Bool × Game :=
  match t with
  | .noTarget => (true, g)
  | .source => (a.choices.target.validate_card a.card_id, g)
  | .player => (a.choices.target.validate_player none, g)
  | .creature =>
    match a.choices.target.validate_creature g with
    | (r, g1) => (r.isSome, g1)
  | .owner => (a.choices.target.validate_player (some a.player_id), g)
  | .anyOf options => Action.validTargetList a g options

def Action.validTargetList (a : Action) (g : Game) : List Target → Bool × Game
  | [] => (false, g)
  | t :: rest =>
    match Action.valid_target a g t with
    | (true, g1) => (true, g1)
    | (false, g1) => Action.validTargetList a g1 rest

end

def Action.validDiscardList (a : Action) (g : Game) : List Choice → Bool × Game
  | [] => (true, g)
  | ch :: rest =>
    match ch with
    | .card card_id =>
      (match g.get_card card_id with
       | some card =>
         if card.owner_id = a.player_id then Action.validDiscardList a g rest else (false, g)
       | none => (false, g) : Bool × Game)
    | _ => (false, g)

def Action.valid_effect (a : Action) (g : Game) : Bool × Game :=
  match a.required.effect with
  | .mana m => (a.choices.effect.validate_mana m, g)
  | .discard card_count =>
    match a.choices.effect with
    | .and choices =>
      if choices.length = card_count then Action.validDiscardList a g choices else (false, g)
    | _ => (false, g)
  | _ => (true, g)

/-- Action::valid = valid_cost && valid_target && valid_effect, with the
    Rust short-circuiting of && made explicit in the state threading. -/
def Action.valid (a : Action) (g : Game) : Bool × Game :=
  match a.valid_cost g a.required.cost with
  | (false, g1) => (false, g1)
  | (true, g1) =>
    match a.valid_target g1 a.required.target with
    | (false, g2) => (false, g2)
    | (true, g2) => a.valid_effect g2

/-! ## Effects and the resolve protocol (src/abilities.rs) -/

mutual

def Effect.get_required_choice : Effect → Choice
  | .mana m => if m.has .any then .mana m else .noChoice
  | .discard count => .and (List.replicate count (.card 0))
  | .and effects => .and (Effect.getRequiredChoiceList effects)
  | _ => .noChoice

def Effect.getRequiredChoiceList : List Effect → List Choice
  | [] => []
  | e :: rest => e.get_required_choice :: Effect.getRequiredChoiceList rest

end

def discardChoicesOk (g : Game) (player_id : ObjectId) : List Choice → Bool
  | [] => true
  | ch :: rest =>
    (match ch with
     | .card card_id =>
       match g.get_card card_id with
       | some card => decide (card.owner_id = player_id ∧ card.zone = Zone.hand)
       | none => false
     | _ => false) && discardChoicesOk g player_id rest

/-- ResolveChoice::valid_choice. -/
def ResolveChoice.valid_choice (r : ResolveChoice) (g : Game) : Bool :=
  match r.effect with
  | .mana m => !(m.has .any) || r.choice.validate_mana m
  | .discard card_count =>
    match r.choice with
    | .card card_id =>
      if card_count ≠ 1 then false
      else
        (match g.get_card card_id with
         | some card => decide (card.owner_id = r.player_id ∧ card.zone = Zone.hand)
         | none => false)
    | .and choices =>
      decide (choices.length = card_count) && discardChoicesOk g r.player_id choices
    | _ => false
  | _ => true

/-- resolve_effect.  The source's return type is
    Result of Option ResolveChoice, but every success path returns
    Ok(None); success is therefore embedded as Except.ok (). -/
def resolve_effect (g : Game) (effect : Effect) (action : Action) (r : ResolveChoice) :
    Except ResolveError Unit × Game :=
  if r.valid_choice g = false then (Except.error .invalidChoice, g)
  else
    match g.get_player action.player_id with
    | none => (Except.error .unknownActionOwner, g)
    | some owner =>
      match effect with
      | .mana m =>
        if m.has .any then
          match r.choice with
          | .mana mc =>
            (Except.ok (), g.setPlayer action.player_id { owner with mana := owner.mana.add mc })
          | _ => (Except.error .invalidChoice, g)
        else
          (Except.ok (), g.setPlayer action.player_id { owner with mana := owner.mana.add m })
      | .damage damage =>
        match action.choices.target with
        | .player player_id => (Except.ok (), deal_player_damage g player_id damage)
        | .card card_id => (Except.ok (), deal_damage g card_id damage)
        | _ => (Except.error .invalidTarget, g)
      | .discard count =>
        match r.choice with
        | .and choices =>
          if choices.length ≠ count then (Except.error .invalidChoice, g)
          else
            (Except.ok (),
              choices.foldl (fun g ch =>
                match ch with
                | .card card_id => put_on_graveyard g card_id
                | _ => g) g)
        | .card card_id => (Except.ok (), put_on_graveyard g card_id)
        | _ => (Except.error .invalidChoice, g)
      | .draw count =>
        match action.required.target with
        | .owner => (Except.ok (), drawN g action.player_id count)
        | .player =>
          match action.choices.target with
          | .player player_id => (Except.ok (), drawN g player_id count)
          | _ => (Except.ok (), g)
        | _ => (Except.error .invalidTarget, g)
      | _ => (Except.error .unknownEffect, g)

/-- get_next_resolve_choice: the choice the player must make to resolve
    the next (sub-)effect, if any. -/
def get_next_resolve_choice (resolve : Resolve) : Option ResolveChoice :=
  let effect :=
    match resolve.effect with
    | .and effects => effects.headD .noEffect
    | e => e
  match effect with
  | .mana m =>
    if m.has .any then
      some { choice := .noChoice, player_id := resolve.player_id, effect := effect }
    else none
  | .discard _ =>
    match resolve.action.choices.target with
    | .player player_id => some { choice := .noChoice, player_id := player_id, effect := effect }
    | _ =>
      if resolve.action.required.target = Target.owner then
        some { choice := .noChoice, player_id := resolve.player_id, effect := effect }
      else none
  | _ => none

/-- start_resolve: pop the top of the waiting stack into the resolving
    slot; an empty stack is a contract violation (the source aborts). -/
def start_resolve (g : Game) : Option Game :=
  if g.stack.isEmpty then none
  else some { g with stack := g.stack.dropLast, resolve := g.stack.getLast? }

def resolveMeasure (g : Game) : Nat :=
  match g.resolve with
  | some res =>
    match res.effect with
    | .and l => l.length
    | _ => 0
  | none => 0

/-- resolve_choice: resolve the current (sub-)effect with the supplied
    choice, auto-advancing into the next sub-effect when it needs no
    player decision. -/
def resolve_choice (g : Game) (r : ResolveChoice) :
    Except ResolveError (Option ResolveChoice) × Game :=
  match hres : g.resolve with
  | none => (Except.error .emptyStack, { g with resolve := none })
  | some res =>
    match heff : res.effect with
    | .and effects =>
      match heffs : effects with
      | [] => (Except.ok none, { g with resolve := some res })
      | e :: rest =>
        match resolve_effect g e res.action r with
        | (Except.error err, gE) => (Except.error err, gE)
        | (Except.ok _, g1) =>
          let res' : Resolve := { res with effect := .and rest }
          let g2 := { g1 with resolve := some res' }
          if rest.isEmpty then (Except.ok none, g2)
          else
            match get_next_resolve_choice res' with
            | some r2 =>
              if r2.effect ≠ Effect.noEffect ∧ r2.effect.get_required_choice = Choice.noChoice then
                resolve_choice g2 ResolveChoice.empty
              else (Except.ok (some r2), g2)
            | none => (Except.ok none, g2)
    | _ =>
      match resolve_effect g res.effect res.action r with
      | (result, g1) =>
        let g2 := { g1 with resolve := some res }
        match result with
        | Except.error err => (Except.error err, g2)
        | Except.ok _ => (Except.ok none, g2)
termination_by resolveMeasure g
decreasing_by
  simp only [resolveMeasure, hres, heff]
  simp [heffs]

/-- end_resolve: route a resolved spell's card to the battlefield or the
    graveyard, clear the resolving slot, and reopen priority for the
    active player; resolving with an empty slot aborts. -/
def end_resolve (g : Game) : Option Game :=
  match g.resolve with
  | none => none
  | some resolve =>
    let g1 :=
      match resolve.kind with
      | .spell card_id =>
        match g.get_card card_id with
        | some card =>
          match card.kind with
          | .artifact | .enchantment | .creature | .land => put_on_battlefield g card_id
          | .instant | .sorcery => put_on_graveyard g card_id
        | none => g
      | .ability => g
    some { g1 with resolve := none, turn.priority := some (Priority.new g1.turn.active_player) }

/-! ## Playing cards and abilities (src/abilities.rs) -/

def can_play_card (g : Game) (card_id player_id : ObjectId) : Bool :=
  match g.turn.priority with
  | none => false
  | some priority =>
    if priority.player_id ≠ player_id then false
    else
      let is_stack_empty := g.stack.length = 0
      let is_main_phase := g.turn.step.main
      let is_active_player := g.turn.active_player = player_id
      let lands_limit :=
        match g.get_player player_id with
        | some player => player.land_limit.current
        | none => 0
      match g.get_card card_id with
      | none => false
      | some card =>
        if card.owner_id ≠ player_id then false
        else if card.kind = CardType.instant then true
        else
          let can_play := is_stack_empty && is_main_phase && is_active_player
          if card.kind = CardType.land then
            can_play && decide (g.turn.lands_played < lands_limit)
          else can_play

def play_card (g : Game) (card_id : ObjectId) (action : Action) : Game :=
  if can_play_card g card_id action.player_id = false then g
  else
    match action.valid g with
    | (false, g1) => g1
    | (true, g1) =>
      match action.pay g1 with
      | (false, g2) => g2
      | (true, g2) =>
        match g2.get_card card_id with
        | none => g2
        | some card =>
          if card.kind = CardType.land then
            let g3 := { g2 with turn.lands_played := g2.turn.lands_played + 1 }
            put_on_battlefield g3 card_id
          else
            let effect :=
              match card.play_ability with
              | some play => play.effect
              | none => .noEffect
            let spell : Resolve :=
              { kind := .spell card_id, action := action, effect := effect,
                player_id := card.owner_id }
            put_on_stack (g2.pushStack spell) card_id

/-- play_ability: validate, pay, push the entry; mana abilities then
    resolve synchronously (start_resolve / resolve_choice / end_resolve
    back to back, the source unwrapping the resolve_choice result). -/
def play_ability (g : Game) (card_id : ObjectId) (ability_id : Nat) (action : Action) :
    Option (Bool × Game) :=
  match g.get_card card_id with
  | none => some (false, g)
  | some card =>
    match card.activated_abilities.get? ability_id with
    | none => some (false, g)
    | some ability =>
      let player_id := card.owner_id
      match action.valid g with
      | (false, g1) => some (false, g1)
      | (true, g1) =>
        match action.pay g1 with
        | (false, g2) => some (false, g2)
        | (true, g2) =>
          let choice := action.choices.effect
          let entry : Resolve :=
            { kind := .ability, effect := ability.effect, action := action,
              player_id := player_id }
          let g3 := g2.pushStack entry
          match ability.effect with
          | .mana _ =>
            match start_resolve g3 with
            | none => none
            | some g4 =>
              match resolve_choice g4
                  { player_id := player_id, choice := choice, effect := ability.effect } with
              | (Except.error _, _) => none
              | (Except.ok _, g5) =>
                match end_resolve g5 with
                | none => none
                | some g6 => some (true, g6)
          | _ => some (true, g3)

/-! ## Turn-level functions (src/turn.rs) -/

def pass_priority (g : Game) : Game :=
  let next_player := g.get_next_player g.turn.active_player
  match g.turn.priority with
  | some priority => { g with turn.priority := some (priority.pass next_player) }
  | none => g

/-- draw_step: enter the Draw step, draw for the active player (via the
    deck module's draw_card), dispatch the phase event, open priority. -/
def draw_step (g : Game) : Option Game :=
  let g0 := { g with turn.step := Step.draw }
  match deck_draw_card g0 g0.turn.active_player with
  | none => none
  | some (_, g1) =>
    let g2 :=
      dispatch_event g1 (Event.phase { owner := g1.turn.active_player, phase := Step.draw })
    some { g2 with turn.priority := some (Priority.new g2.turn.active_player) }

/-! ## Combat damage (src/turn.rs) -/

def set_blockers_toughness (g : Game) : Game :=
  let attackers := g.turn.combat.attackers
  attackers.foldl (fun g p =>
    p.2.blockers.foldl (fun g blocker_id =>
      let toughness :=
        match g.get_card blocker_id with
        | some blocker => blocker.state.toughness.current
        | none => 0
      g.btInsert blocker_id toughness) g) g

/-- The inner loop of set_blockers_toughness for one attacker's blocker
    list (named so the ledger can be reasoned about separately). -/
def sbtFold (bs : List ObjectId) (g : Game) : Game :=
  bs.foldl (fun g blocker_id =>
    let toughness :=
      match g.get_card blocker_id with
      | some blocker => blocker.state.toughness.current
      | none => 0
    g.btInsert blocker_id toughness) g

/-- The automatic left-to-right damage distribution loop of
    combat_damage_step_start for one attacker and attack type. -/
def autoDistribute (g : Game) (attacker_id : ObjectId) (ty : AttackType) :
    List ObjectId → Int → Option Game
  | [], _ => some g
  | blocker_id :: rest, damage_left =>
    if damage_left ≤ 0 then some g
    else
      let toughness := g.btGet blocker_id
      let damage := min toughness damage_left
      let g1 := g.btInsert blocker_id (toughness - damage)
      match g1.getAttacker attacker_id with
      | some attacker =>
        match lookupPair attacker.attacks ty with
        | none => none
        | some attack =>
          let damage_left' := i16_saturating_sub damage_left damage
          let attack' :=
            { attack with assignments := insertPair attack.assignments blocker_id damage,
                          power := { attack.power with current := damage_left' } }
          let g2 := g1.setAttacker attacker_id
            { attacker with attacks := insertPair attacker.attacks ty attack' }
          autoDistribute g2 attacker_id ty rest damage_left'
      | none => autoDistribute g1 attacker_id ty rest damage_left

/-- combat_damage_step_start: record the step, snapshot each blocker's
    toughness, then auto-distribute each attacker's power across its
    blockers for the first-strike and then the regular attack records. -/
def combat_damage_step_start (g : Game) : Option Game :=
  let g0 := { g with turn.step := Step.combatDamage }
  let g1 := set_blockers_toughness g0
  let attackers := g1.turn.combat.attackers
  [AttackType.firstStrike, AttackType.regular].foldl (fun og ty =>
    attackers.foldl (fun og p =>
      match og with
      | none => none
      | some g =>
        match lookupPair p.2.attacks ty with
        | none => some g
        | some attack => autoDistribute g p.2.id ty p.2.blockers attack.power.default) og)
    (some g1)

def assign_combat_damage (g : Game) (attacker_id blocker_id : ObjectId)
    (attack_type : AttackType) (damage : Int) : Bool × Game :=
  if damage < 0 then (false, g)
  else
    let toughness := g.btGet blocker_id
    if damage > toughness then (false, g)
    else
      match g.getAttacker attacker_id with
      | some attacker =>
        match lookupPair attacker.attacks attack_type with
        | some attack =>
          let current := (lookupPair attack.assignments blocker_id).getD 0
          if attack.power.current = attack.power.default then
            let attack' :=
              { attack with
                  power := { attack.power with current := attack.power.current - damage },
                  assignments := insertPair attack.assignments blocker_id damage }
            (true,
              (g.setAttacker attacker_id
                { attacker with attacks := insertPair attacker.attacks attack_type attack' }).btInsert
                blocker_id (toughness - damage))
          else
            let diff := current - damage
            if diff < 0 ∧ attack.power.current ≥ -diff then
              let attack' :=
                { attack with
                    power := { attack.power with current := attack.power.current - diff },
                    assignments := insertPair attack.assignments blocker_id damage }
              (true,
                (g.setAttacker attacker_id
                  { attacker with attacks := insertPair attacker.attacks attack_type attack' }).btInsert
                  blocker_id (toughness - diff))
            else if diff > 0 then
              let attack' :=
                { attack with
                    power := { attack.power with current := attack.power.current + diff },
                    assignments := insertPair attack.assignments blocker_id damage }
              (true,
                (g.setAttacker attacker_id
                  { attacker with attacks := insertPair attacker.attacks attack_type attack' }).btInsert
                  blocker_id (toughness + diff))
            else (false, g)
        | none => (false, g)
      | none => (false, g)

/-- The inner assignments loop of is_combat_damage_assigned, returning
    the accumulated totals while updating the toughness ledger. -/
def icdaAssign (g : Game) (total maxA : Int) :
    List (ObjectId × Int) → Int × Int × Game
  | [] => (total, maxA, g)
  | (blocker_id, damage) :: rest =>
    let toughness := g.btGet blocker_id
    icdaAssign (g.btInsert blocker_id (toughness - damage)) (total + damage)
      (maxA + toughness) rest

def icdaAttackers (g : Game) (ty : AttackType) :
    List (ObjectId × Attacker) → Bool × Game
  | [] => (true, g)
  | (_, attacker) :: rest =>
    match lookupPair attacker.attacks ty with
    | none => icdaAttackers g ty rest
    | some attack =>
      match icdaAssign g 0 0 attack.assignments with
      | (total, maxA, g1) =>
        let maxA' := min maxA attack.power.default
        if total < maxA' then (false, g1) else icdaAttackers g1 ty rest

/-- is_combat_damage_assigned: every attack record must have total
    assigned damage at least min(sum of ledger toughness, power);
    the check consumes the toughness ledger as it goes. -/
def is_combat_damage_assigned (g : Game) : Bool × Game :=
  let attackers := g.turn.combat.attackers
  match icdaAttackers g .firstStrike attackers with
  | (false, g1) => (false, g1)
  | (true, g1) => icdaAttackers g1 .regular attackers

def split_first_strike (g : Game) (creatures : List ObjectId) :
    List ObjectId × List ObjectId :=
  creatures.foldl (fun acc creature_id =>
    match g.get_card creature_id with
    | some card =>
      if card.static_abilities.contains .doubleStrike then
        (insertUniq acc.1 creature_id, insertUniq acc.2 creature_id)
      else if card.static_abilities.contains .firstStrike then
        (insertUniq acc.1 creature_id, acc.2)
      else (acc.1, insertUniq acc.2 creature_id)
    | none => acc) ([], [])

/-- One blocker interaction inside deal_combat_damage: the blocker takes
    its assigned damage when the attacker may attack, and the attacker
    takes the blocker's power when the blocker may counterattack. -/
def dealOneBlocker (g : Game) (attacker_id : ObjectId) (ty : AttackType)
    (can_attack can_counterattack : List ObjectId) (blocker : ObjectId) : Game :=
  let damage_dealt : Int :=
    match g.getAttacker attacker_id with
    | some attacker =>
      match lookupPair attacker.attacks ty with
      | some attack => (lookupPair attack.assignments blocker).getD 0
      | none => 0
    | none => 0
  let dtg : Int × Game :=
    match g.get_card blocker with
    | some card =>
      (card.state.power.current,
        if can_attack.contains attacker_id then
          g.setCard blocker
            { card with state :=
                { card.state with toughness :=
                    { card.state.toughness with
                        current := card.state.toughness.current - damage_dealt } } }
        else g)
    | none => (0, g)
  let damage_taken := dtg.1
  let g1 := dtg.2
  match g1.get_card attacker_id with
  | some card =>
    if can_counterattack.contains blocker then
      g1.setCard attacker_id
        { card with state :=
            { card.state with toughness :=
                { card.state.toughness with
                    current := card.state.toughness.current - damage_taken } } }
    else g1
  | none => g1

/-- One attacker's round inside deal_combat_damage. -/
def dealOneAttacker (can_attack can_counterattack : List ObjectId) (ty : AttackType)
    (g : Game) (attacker_id : ObjectId) : Game :=
  let trample :=
    match g.get_card attacker_id with
    | some card => card.static_abilities.contains .trample
    | none => false
  let bg : List ObjectId × Game :=
    match g.getAttacker attacker_id with
    | some attacker =>
      (attacker.blockers,
        g.setAttacker attacker_id
          { attacker with blocked := !trample && attacker.blockers.length > 0 })
    | none => ([], g)
  let block := bg.1
  let g1 := bg.2
  let g2 := block.foldl (fun g b => dealOneBlocker g attacker_id ty can_attack can_counterattack b) g1
  match g2.getAttacker attacker_id with
  | some attacker =>
    match lookupPair attacker.attacks ty with
    | some attack =>
      if !attacker.blocked && can_attack.contains attacker_id then
        deal_player_damage g2 attacker.target (i16_as_u16 attack.power.current)
      else g2
    | none => g2
  | none => g2

/-- deal_combat_damage: one ordered combat-damage pass over all declared
    attackers, with participation gated by the two given sets. -/
def deal_combat_damage (g : Game) (can_attack can_counterattack : List ObjectId)
    (ty : AttackType) : Game :=
  (g.turn.combat.attackers.map (fun p => p.1)).foldl
    (dealOneAttacker can_attack can_counterattack ty) g

/-- combat_damage_step_end: gate on is_combat_damage_assigned, run the
    first-strike pass, exclude creatures that died from the regular pass,
    run the regular pass, then move every dead combatant to the graveyard
    in one batch. -/
def combat_damage_step_end (g : Game) : Game :=
  match is_combat_damage_assigned g with
  | (false, g1) => g1
  | (true, g0) =>
    let split_a := split_first_strike g0 g0.turn.combat.get_attackers
    let split_b := split_first_strike g0 g0.turn.combat.get_blockers
    let g1 := deal_combat_damage g0 split_a.1 split_b.1 .firstStrike
    let attackers_last := split_a.2.filter (fun id => is_alive g1 id)
    let blockers_last := split_b.2.filter (fun id => is_alive g1 id)
    let g2 := deal_combat_damage g1 attackers_last blockers_last .regular
    let dead := g2.turn.combat.attackers.foldl (fun acc p =>
      let acc1 := if is_alive g2 p.2.id then acc else acc ++ [p.2.id]
      acc1 ++ p.2.blockers.filter (fun b => !is_alive g2 b)) []
    dead.foldl (fun g card_id => put_on_graveyard g card_id) g2


/-! ## Concrete states used by counterexamples and witnesses -/

/-- A combat-damage-step state: attacker 1 (power 2, regular attack, no
    assignments yet, full spillable power) attacking player 9, blocked by
    blocker 2 whose toughness ledger holds 5. -/
def gC4 : Game where
  turn :=
    { step := .combatDamage
      priority := none
      combat :=
        { attackers :=
            [(1, { id := 1, target := 9, attacks := [(.regular, Attack.new 2)],
                   blockers := [2], blocked := false })]
          blockers_toughness := [(2, 5)] }
      active_player := 9
      lands_played := 0 }
  status := .play
  players := []
  cards := []
  stack := []
  resolve := none
  uid := 0

/-- A main-phase state where player 1 may play the land card 2. -/
def cardC5 : Card :=
  { Card.new_land 1 with id := 2, zone := .hand }

def gC5 : Game where
  turn :=
    { step := .precombat
      priority := some (Priority.new 1)
      combat := Combat.new
      active_player := 1
      lands_played := 0 }
  status := .play
  players := [{ Player.new with id := 1, hand := [2] }]
  cards := [(2, cardC5)]
  stack := []
  resolve := none
  uid := 2

/-- A two-player state where the active player is 1 and priority is held
    by the opponent 2. -/
def gC8 : Game where
  turn :=
    { step := .upkeep
      priority := some (Priority.new 2)
      combat := Combat.new
      active_player := 1
      lands_played := 0 }
  status := .play
  players := [{ Player.new with id := 1 }, { Player.new with id := 2 }]
  cards := []
  stack := []
  resolve := none
  uid := 2

/-- A state whose active player 1 has an empty library. -/
def gC10 : Game where
  turn :=
    { step := .upkeep
      priority := some (Priority.new 1)
      combat := Combat.new
      active_player := 1
      lands_played := 0 }
  status := .play
  players := [{ Player.new with id := 1 }]
  cards := []
  stack := []
  resolve := none
  uid := 1

/-- An artifact (card 2, on the battlefield, owned by player 1) with an
    activated ability costing sacrifice-the-source AND tap-the-source;
    paying sacrifices the card, after which the tap component fails. -/
def cardC6 : Card :=
  { Card.new_artifact 1 with
      id := 2
      zone := .battlefield
      activated_abilities :=
        [{ cost := .and [.sacrifice .source, .tap .source], effect := .damage 1,
           target := .noTarget }] }

def gC6 : Game where
  turn :=
    { step := .precombat
      priority := some (Priority.new 1)
      combat := Combat.new
      active_player := 1
      lands_played := 0 }
  status := .play
  players := [{ Player.new with id := 1, battlefield := [2] }]
  cards := [(2, cardC6)]
  stack := []
  resolve := none
  uid := 2

def actC6 : Action where
  player_id := 1
  card_id := 2
  required :=
    { cost := .and [.sacrifice .source, .tap .source]
      target := .noTarget
      effect := .noEffect }
  choices :=
    { cost := .and [.card 2]
      target := .noChoice
      effect := .noChoice }

/-- actC6 with its cost choice removed, so that validation fails. -/
def actC6inv : Action :=
  { actC6 with choices := { actC6.choices with cost := .noChoice } }

/-- A City-of-Brass-style land (card 3, owned by player 1): tap for one
    mana of any color, and a triggered ability dealing 1 damage to the
    owner whenever the source is tapped. -/
def cardC7 : Card :=
  { Card.new_land 1 with
      id := 3
      zone := .battlefield
      activated_abilities :=
        [{ cost := .tap .source, effect := .mana ⟨0, 0, 0, 0, 0, 0, 1⟩,
           target := .noTarget }]
      triggered_abilities :=
        [{ condition := .tap .source, effect := .damage 1, target := .owner }] }

def gC7 : Game where
  turn :=
    { step := .precombat
      priority := some (Priority.new 1)
      combat := Combat.new
      active_player := 1
      lands_played := 0 }
  status := .play
  players := [{ Player.new with id := 1, battlefield := [3] }]
  cards := [(3, cardC7)]
  stack := []
  resolve := none
  uid := 3

def actC7 : Action where
  player_id := 1
  card_id := 3
  required := { cost := .tap .source, target := .noTarget, effect := .noEffect }
  choices :=
    { cost := .card 3
      target := .noChoice
      effect := .mana ⟨0, 0, 0, 1, 0, 0, 0⟩ }

/-- The game state right after paying actC7's tap cost: tapping the
    card dispatched the tap event, which queued the card's triggered
    ability on the waiting stack. -/
def gpC7 : Game := (actC7.pay gC7).2

/-- A plain Forest-style land (card 3, owned by player 1) with no
    triggered abilities, tapping for one green mana. -/
def cardC7F : Card :=
  { Card.new_land 1 with
      id := 3
      zone := .battlefield
      activated_abilities :=
        [{ cost := .tap .source, effect := .mana ⟨0, 0, 0, 0, 1, 0, 0⟩,
           target := .noTarget }] }

def gC7F : Game where
  turn :=
    { step := .precombat
      priority := some (Priority.new 1)
      combat := Combat.new
      active_player := 1
      lands_played := 0 }
  status := .play
  players := [{ Player.new with id := 1, battlefield := [3] }]
  cards := [(3, cardC7F)]
  stack := []
  resolve := none
  uid := 3

def actC7F : Action where
  player_id := 1
  card_id := 3
  required := { cost := .tap .source, target := .noTarget, effect := .noEffect }
  choices := { cost := .card 3, target := .noChoice, effect := .noChoice }

/-- The game state right after paying actC7F's tap cost (no triggered
    abilities on the Forest, so nothing is queued). -/
def gpC7F : Game := (actC7F.pay gC7F).2

/-- The game produced by the successful play of the Forest mana ability,
    spelled out along play_ability's synchronous resolution path:
    push the entry, pop it into the resolving slot, apply the mana
    effect, clear the slot and reopen priority. -/
def gC7Fresult : Game :=
  let mF : Mana := ⟨0, 0, 0, 0, 1, 0, 0⟩
  let entry : Resolve :=
    { kind := .ability, effect := Effect.mana mF, action := actC7F, player_id := 1 }
  let g4 : Game := { gpC7F with resolve := some entry }
  let g5 : Game :=
    { (resolve_effect g4 (Effect.mana mF) actC7F
        { player_id := 1, choice := Choice.noChoice, effect := Effect.mana mF }).2 with
      resolve := some entry }
  { g5 with resolve := none, turn.priority := some (Priority.new g5.turn.active_player) }

/-- The observable outcome claim C7 asserts for a successfully played
    mana ability, relative to the state right after payment:
    the resolving slot is clear, the waiting stack is exactly the
    post-payment stack, and the controller's pool has been incremented by
    the produced (or chosen, for a wildcard) mana. -/
def C7Post (g : Game) (a : Action) (m : Mana) (g2 : Game) : Prop :=
  (a.valid g).1 = true ∧
  (a.pay g).1 = true ∧
  g2.resolve = none ∧
  g2.stack = ((a.pay g).2).stack ∧
  (if m.has .any then
     ∃ mc player, a.choices.effect = Choice.mana mc ∧
       ((a.pay g).2).get_player a.player_id = some player ∧
       g2.get_player a.player_id = some { player with mana := player.mana.add mc }
   else
     ∃ player, ((a.pay g).2).get_player a.player_id = some player ∧
       g2.get_player a.player_id = some { player with mana := player.mana.add m })

/-- Trample attacker for claim C2: card 1 is a 4/4 with Trample owned by
    player 1, blocked by the 1/2 card 2 and the 1/1 card 3; the defender
    is player 9. -/
def cardC2a : Card :=
  { Card.new_creature 1 4 4 with
      id := 1
      zone := .battlefield
      static_abilities := [.trample] }

def cardC2b1 : Card := { Card.new_creature 9 1 2 with id := 2, zone := .battlefield }

def cardC2b2 : Card := { Card.new_creature 9 1 1 with id := 3, zone := .battlefield }

def playerC2 : Player := { Player.new with id := 9 }

def tfC2 : ObjectId → Int := fun b => if b = 2 then 2 else 1

def gC2 : Game where
  turn :=
    { step := .precombat
      priority := none
      combat :=
        { attackers :=
            [(1, { id := 1, target := 9,
                   attacks := [(.regular,
                     { power := { current := 4, default := 4 }, assignments := [] })],
                   blockers := [2, 3], blocked := false })]
          blockers_toughness := [] }
      active_player := 1
      lands_played := 0 }
  status := .play
  players := [playerC2]
  cards := [(1, cardC2a), (2, cardC2b1), (3, cardC2b2)]
  stack := []
  resolve := none
  uid := 4

/-- Non-trample blocked attacker for the second half of claim C2. -/
def cardC2c : Card := { Card.new_creature 1 2 2 with id := 1, zone := .battlefield }

def gC2b : Game where
  turn :=
    { step := .combatDamage
      priority := none
      combat :=
        { attackers :=
            [(1, { id := 1, target := 9,
                   attacks := [(.regular,
                     { power := { current := 0, default := 2 }, assignments := [(2, 2)] })],
                   blockers := [2], blocked := false })]
          blockers_toughness := [(2, 0)] }
      active_player := 1
      lands_played := 0 }
  status := .play
  players := [playerC2]
  cards := [(1, cardC2c), (2, cardC2b1)]
  stack := []
  resolve := none
  uid := 4

/-- The state threaded out of the combat-damage-assignment check on
    gC2b (the check consumes the toughness ledger). -/
def g0C3 : Game := (is_combat_damage_assigned gC2b).2

-- THEOREMS-BELOW

/-! ## Lemmas about Mana.enough (claim C1) -/

theorem Mana.set_get_self (m : Mana) (c : Color) : m.set c (m.get c) = m := by
  cases c <;> rfl

theorem Mana.enoughGo_zero_head (c : Color) (rest : List (Color × Nat)) (rem : Mana) :
    Mana.enoughGo rem ((c, 0) :: rest) = Mana.enoughGo rem rest := by
  cases c <;>
    simp [Mana.enoughGo, Mana.set_get_self]

theorem Mana.iter_eq_filter (c : Mana) :
    c.iter = c.iterFull.filter (fun p => decide (0 < p.2)) := by
  unfold Mana.iter Mana.iterFull
  split_ifs <;> simp_all [List.filter]

theorem Mana.enoughGo_filter (l : List (Color × Nat)) :
    ∀ rem, Mana.enoughGo rem (l.filter (fun p => decide (0 < p.2))) =
      Mana.enoughGo rem l := by
  induction l with
  | nil => intro rem; rfl
  | cons p rest ih =>
    intro rem
    obtain ⟨color, a⟩ := p
    by_cases ha : 0 < a
    · rw [List.filter_cons_of_pos (by simpa using ha)]
      cases color <;>
        (simp only [Mana.enoughGo]; split_ifs <;> simp [ih])
    · have ha0 : a = 0 := by omega
      subst ha0
      rw [List.filter_cons_of_neg (by simp)]
      rw [Mana.enoughGo_zero_head]
      exact ih rem

theorem Mana.enoughGo_iter_eq_full (c : Mana) (rem : Mana) :
    Mana.enoughGo rem c.iter = Mana.enoughGo rem c.iterFull := by
  rw [Mana.iter_eq_filter, Mana.enoughGo_filter]

theorem Mana.pickGo_isSome (l : List (Color × Nat)) :
    ∀ pick rem, 0 < rem →
      (Mana.pickGo pick rem l).isSome = decide (rem ≤ sumAmounts l) := by
  induction l with
  | nil =>
    intro pick rem h
    simp [Mana.pickGo, sumAmounts]
    omega
  | cons p rest ih =>
    intro pick rem h
    obtain ⟨color, current⟩ := p
    by_cases hz : current = 0
    · subst hz
      simp [Mana.pickGo, sumAmounts] at *
      rw [ih pick rem h]
    · by_cases hgt : current > rem
      · simp [Mana.pickGo, hz, hgt, sumAmounts]
        omega
      · by_cases hzero : rem - current = 0
        · simp [Mana.pickGo, hz, hgt, hzero, sumAmounts]
          omega
        · simp only [Mana.pickGo, hz, if_false, hgt, hzero]
          rw [ih _ (rem - current) (by omega)]
          simp [sumAmounts]
          omega

theorem Mana.sum_iter (m : Mana) :
    sumAmounts m.iter = m.white + m.red + m.green + m.blue + m.black + m.colorless := by
  unfold Mana.iter
  split_ifs <;> simp_all [sumAmounts] <;> omega

theorem Mana.pick_any_isSome (m : Mana) (k : Nat) (h : 0 < k) :
    (m.pick_any k).isSome =
      decide (k ≤ m.white + m.red + m.green + m.blue + m.black + m.colorless) := by
  rw [Mana.pick_any, Mana.pickGo_isSome _ _ _ h, Mana.sum_iter]

/-- Characterization of Mana::enough: colored components must be covered
    in kind, the colorless component from the colorless reserve plus the
    colored surplus, and the `any` component of the cost is ignored. -/
theorem Mana.enough_characterization (p c : Mana) :
    p.enough c = true ↔
      (c.white ≤ p.white ∧ c.blue ≤ p.blue ∧ c.black ≤ p.black ∧
       c.red ≤ p.red ∧ c.green ≤ p.green ∧
       c.colorless ≤ p.colorless +
         ((p.white - c.white) + (p.red - c.red) + (p.green - c.green) +
          (p.blue - c.blue) + (p.black - c.black))) := by
  rw [Mana.enough, Mana.enoughGo_iter_eq_full]
  simp only [Mana.iterFull, Mana.enoughGo, Mana.get, Mana.set]
  split_ifs with h1 h2 h3 h4 h5 h6
  · constructor
    · intro _; exact ⟨h1, h4, h5, h2, h3, by omega⟩
    · intro _; rfl
  · rw [Mana.pick_any_isSome _ _ (by omega)]
    simp only [decide_eq_true_eq]
    constructor
    · intro hle; exact ⟨h1, h4, h5, h2, h3, by omega⟩
    · intro hc; omega
  · constructor
    · intro hfalse; exact absurd hfalse (by simp)
    · intro hc; exfalso; omega
  · constructor
    · intro hfalse; exact absurd hfalse (by simp)
    · intro hc; exfalso; omega
  · constructor
    · intro hfalse; exact absurd hfalse (by simp)
    · intro hc; exfalso; omega
  · constructor
    · intro hfalse; exact absurd hfalse (by simp)
    · intro hc; exfalso; omega
  · constructor
    · intro hfalse; exact absurd hfalse (by simp)
    · intro hc; exfalso; omega


/-! ## Generic preservation lemmas -/

theorem foldl_preserves {γ β : Type} (F : Game → γ) (f : Game → β → Game)
    (h : ∀ g b, F (f g b) = F g) : ∀ (l : List β) (g : Game), F (l.foldl f g) = F g := by
  intro l
  induction l with
  | nil => intro g; rfl
  | cons b rest ih => intro g; rw [List.foldl_cons, ih, h]

theorem run_player_triggers_status (g : Game) (player_id : ObjectId) (ev : Event) :
    (run_player_triggers g player_id ev).status = g.status := by
  unfold run_player_triggers
  cases g.get_player player_id with
  | none => rfl
  | some p =>
    refine foldl_preserves Game.status _ (fun g cid => ?_) p.battlefield g
    refine foldl_preserves Game.status _ (fun g tr => ?_) _ g
    split <;> rfl

theorem dispatch_event_status (g : Game) (ev : Event) :
    (dispatch_event g ev).status = g.status := by
  unfold dispatch_event
  have h1 : ∀ (gx : Game) (pid : ObjectId),
      Game.status (if pid ≠ gx.turn.active_player then run_player_triggers gx pid ev else gx)
        = gx.status := by
    intro gx pid
    split
    · exact run_player_triggers_status gx pid ev
    · rfl
  rw [foldl_preserves Game.status _ h1, run_player_triggers_status]

/-! ## Claim C1 (corrected) -/

/-- C1, counterexample: the empty pool is judged `enough` for the cost
    consisting of one wildcard (`any`) component, although that pool
    cannot pay the wildcard component from any surplus, so `enough` is
    not the payment predicate the claim states. -/
theorem C1_counterexample :
    Mana.enough Mana.new ⟨0, 0, 0, 0, 0, 0, 1⟩ = true ∧
    ¬ Mana.canPayClaim Mana.new ⟨0, 0, 0, 0, 0, 0, 1⟩ :=
  ⟨rfl, by decide⟩

/-- C1, amended: Mana::enough(p, c) returns true iff p can pay every
    colored component of c in kind and every colorless component of c
    from the remaining surplus mana of any colors; the wildcard (`any`)
    components of c are ignored (c is paid as if its `any` count were
    zero), because Mana::iter never yields the `any` field. -/
theorem C1_enough_amended (p c : Mana) :
    p.enough c = true ↔ Mana.canPayClaim p { c with any := 0 } := by
  rw [Mana.enough_characterization]
  show _ ↔ Mana.canPayClaim p ⟨c.red, c.white, c.blue, c.black, c.green, c.colorless, 0⟩
  unfold Mana.canPayClaim Mana.paysColoredInKind Mana.surplus
  dsimp only
  omega

/-! ## Claim C4 (code bug) -/

/-- C4, evaluation at the failing input: in state gC4 (attacker power 2,
    fresh assignment record with full spillable power, blocker ledger 5),
    assign_combat_damage accepts an assignment of 5 damage — more than
    the attacker's total power for the attack type — recording 5 and
    driving the remaining spillable power to -3, where the claim requires
    the call to return false and leave the combat state unchanged. -/
theorem C4_failing_input_eval :
    (assign_combat_damage gC4 1 2 AttackType.regular 5).1 = true ∧
    ((assign_combat_damage gC4 1 2 AttackType.regular 5).2.getAttacker 1).map (fun atk =>
        (lookupPair atk.attacks AttackType.regular).map (fun att =>
          (att.assignments, att.power.current, att.power.default))) =
      some (some ([(2, 5)], (-3 : Int), (2 : Int))) := by
  decide

/-! ## Claim C8 (corrected) -/

/-- C8, counterexample: in gC8 the priority holder is player 2 while the
    active player is 1; after pass_priority the new holder is still
    player 2, not the next player in turn order after the holder
    (which is player 1), because the source advances from the active
    player instead of the holder. -/
theorem C8_counterexample :
    gC8.turn.priority.map (fun pr => pr.player_id) = some 2 ∧
    (pass_priority gC8).turn.priority.map (fun pr => pr.player_id) = some 2 ∧
    gC8.get_next_player 2 = 1 := by
  decide

/-- C8, amended: for every game with an open priority window,
    pass_priority records the current holder as having passed and makes
    the next player in turn order after the ACTIVE player (not after the
    holder) the new priority holder. -/
theorem C8_pass_priority_amended (g : Game) (pr : Priority)
    (h : g.turn.priority = some pr) :
    pass_priority g =
      { g with turn.priority := some (Priority.pass pr (g.get_next_player g.turn.active_player)) } := by
  unfold pass_priority
  rw [h]

/-- C8, witness: the amended statement evaluated on gC8. -/
theorem C8_witness :
    pass_priority gC8 =
      { gC8 with turn.priority := some (Priority.pass (Priority.new 2) (gC8.get_next_player gC8.turn.active_player)) } :=
  C8_pass_priority_amended gC8 (Priority.new 2) rfl

/-! ## Claim C10 (confirmed) -/

/-- C10: for every player whose library is empty, draw_card returns None,
    sets the game status to Lose for that player, and changes nothing
    else (in particular no card moves between zones); the same losing
    condition fires on the automatic draw of the Draw step. -/
theorem C10_draw_empty_library_loses (g : Game) (player_id : ObjectId) (player : Player)
    (hp : g.get_player player_id = some player) (hlib : player.library = []) :
    draw_card g player_id = (none, { g with status := GameStatus.lose player_id }) ∧
    (player_id = g.turn.active_player →
      ∃ g2, draw_step g = some g2 ∧ g2.status = GameStatus.lose player_id) := by
  constructor
  · unfold draw_card
    simp only [hp, hlib, List.getLast?_nil]
  · intro hactive
    subst hactive
    have hp2 : Game.get_player { g with turn.step := Step.draw }
        ({ g with turn.step := Step.draw } : Game).turn.active_player = some player := hp
    simp only [draw_step, deck_draw_card, hp2, hlib]
    refine ⟨_, rfl, ?_⟩
    have hpri : ∀ (gx : Game) (pr : Option Priority),
        Game.status { gx with turn.priority := pr } = gx.status := fun _ _ => rfl
    rw [hpri, dispatch_event_status]



/-! ## Claim C5 (confirmed) -/

/-- C5: for every card that is not an Instant, can_play_card returns true
    only when the player holds priority, owns the card, the stack is
    empty, the step is a main phase, and the player is the active player;
    for a Land it additionally requires the lands played this turn to be
    below the player's land limit. -/
theorem C5_can_play_card_sorcery_speed (g : Game) (card_id player_id : ObjectId) (card : Card)
    (hcard : g.get_card card_id = some card)
    (hkind : card.kind ≠ CardType.instant)
    (hplay : can_play_card g card_id player_id = true) :
    (∃ pr, g.turn.priority = some pr ∧ pr.player_id = player_id) ∧
    card.owner_id = player_id ∧
    g.stack = [] ∧
    (g.turn.step = Step.precombat ∨ g.turn.step = Step.postcombat) ∧
    g.turn.active_player = player_id ∧
    (card.kind = CardType.land →
      ∃ player, g.get_player player_id = some player ∧
        g.turn.lands_played < player.land_limit.current) := by
  unfold can_play_card at hplay
  cases hpr : g.turn.priority with
  | none => rw [hpr] at hplay; exact absurd hplay (by simp)
  | some pr =>
    simp only [hpr, hcard] at hplay
    split_ifs at hplay with h1 h2 h3
    · -- land case
      simp only [Bool.and_eq_true, decide_eq_true_eq] at hplay
      obtain ⟨⟨⟨hstack, hmain⟩, hactive⟩, hlimit⟩ := hplay
      refine ⟨⟨pr, rfl, not_ne_iff.mp h1⟩, not_ne_iff.mp h2,
        List.length_eq_zero.mp hstack, ?_, hactive, ?_⟩
      · unfold Step.main at hmain
        simpa using hmain
      · intro _
        cases hgp : g.get_player player_id with
        | none => rw [hgp] at hlimit; simp at hlimit
        | some player =>
          rw [hgp] at hlimit
          exact ⟨player, rfl, by simpa using hlimit⟩
    · -- non-land case
      simp only [Bool.and_eq_true, decide_eq_true_eq] at hplay
      obtain ⟨⟨hstack, hmain⟩, hactive⟩ := hplay
      refine ⟨⟨pr, rfl, not_ne_iff.mp h1⟩, not_ne_iff.mp h2,
        List.length_eq_zero.mp hstack, ?_, hactive, fun hland => absurd hland h3⟩
      unfold Step.main at hmain
      simpa using hmain

/-- C5, witness: the statement evaluated on gC5, where player 1 may play
    the land card 2 in the precombat main phase. -/
theorem C5_witness :
    can_play_card gC5 2 1 = true ∧
    ((∃ pr, gC5.turn.priority = some pr ∧ pr.player_id = 1) ∧
      cardC5.owner_id = 1 ∧ gC5.stack = [] ∧
      (gC5.turn.step = Step.precombat ∨ gC5.turn.step = Step.postcombat) ∧
      gC5.turn.active_player = 1 ∧
      (cardC5.kind = CardType.land →
        ∃ player, gC5.get_player 1 = some player ∧
          gC5.turn.lands_played < player.land_limit.current)) :=
  ⟨by decide, C5_can_play_card_sorcery_speed gC5 2 1 cardC5 rfl (by decide) (by decide)⟩

/-! ## Purity of Action::valid (claim C9) -/

mutual

theorem Choice.validate_creature_snd :
    ∀ (ch : Choice) (g : Game), (ch.validate_creature g).2 = g
  | .noChoice, g => rfl
  | .mana _, g => rfl
  | .player _, g => rfl
  | .card card_id, g => by
      simp only [Choice.validate_creature]
      rcases hg : g.get_card card_id with _ | c <;> simp [hg]
  | .and chs, g => Choice.validateCreatureList_snd chs g

theorem Choice.validateCreatureList_snd :
    ∀ (chs : List Choice) (g : Game), (Choice.validateCreatureList chs g).2 = g
  | [], g => rfl
  | ch :: rest, g => by
      have h1 := Choice.validate_creature_snd ch g
      simp only [Choice.validateCreatureList]
      rcases hcv : ch.validate_creature g with ⟨r, g1⟩
      rw [hcv] at h1
      cases r with
      | some cid => simpa using h1
      | none =>
        have h2 := Choice.validateCreatureList_snd rest g1
        simp only []
        rw [h2]
        exact h1

end

mutual

theorem Action.valid_cost_snd (a : Action) :
    ∀ (c : Cost) (g : Game), (Action.valid_cost a g c).2 = g
  | .noCost, g => rfl
  | .mana _, g => rfl
  | .tap t, g => by
      cases t <;> simp only [Action.valid_cost] <;> split <;> rfl
  | .sacrifice t, g => by
      cases t <;> simp only [Action.valid_cost]
      case creature =>
        have h1 := Choice.validate_creature_snd a.choices.cost g
        rcases hcv : a.choices.cost.validate_creature g with ⟨r, g1⟩
        rw [hcv] at h1
        cases r <;> simpa using h1
      all_goals rfl
  | .and cs, g => Action.validCostList_snd a cs g

theorem Action.validCostList_snd (a : Action) :
    ∀ (cs : List Cost) (g : Game), (Action.validCostList a g cs).2 = g
  | [], g => rfl
  | c :: rest, g => by
      have h1 := Action.valid_cost_snd a c g
      simp only [Action.validCostList]
      rcases hvc : Action.valid_cost a g c with ⟨b, g1⟩
      rw [hvc] at h1
      cases b with
      | false => simpa using h1
      | true =>
        have h2 := Action.validCostList_snd a rest g1
        simp only []
        rw [h2]
        exact h1

end

mutual

theorem Action.valid_target_snd (a : Action) :
    ∀ (t : Target) (g : Game), (Action.valid_target a g t).2 = g
  | .noTarget, g => rfl
  | .source, g => rfl
  | .player, g => rfl
  | .owner, g => rfl
  | .creature, g => by
      have h1 := Choice.validate_creature_snd a.choices.target g
      simp only [Action.valid_target]
      rcases hcv : a.choices.target.validate_creature g with ⟨r, g1⟩
      rw [hcv] at h1
      simpa using h1
  | .anyOf options, g => Action.validTargetList_snd a options g

theorem Action.validTargetList_snd (a : Action) :
    ∀ (ts : List Target) (g : Game), (Action.validTargetList a g ts).2 = g
  | [], g => rfl
  | t :: rest, g => by
      have h1 := Action.valid_target_snd a t g
      simp only [Action.validTargetList]
      rcases hvt : Action.valid_target a g t with ⟨b, g1⟩
      rw [hvt] at h1
      cases b with
      | true => simpa using h1
      | false =>
        have h2 := Action.validTargetList_snd a rest g1
        simp only []
        rw [h2]
        exact h1

end

theorem Action.validDiscardList_snd (a : Action) :
    ∀ (chs : List Choice) (g : Game), (Action.validDiscardList a g chs).2 = g := by
  intro chs
  induction chs with
  | nil => intro g; rfl
  | cons ch rest ih =>
    intro g
    cases ch <;> simp only [Action.validDiscardList]
    case card card_id =>
      rcases hg : g.get_card card_id with _ | c
      · simp [hg]
      · simp only [hg]
        split
        · exact ih g
        · rfl
    all_goals rfl

theorem Action.valid_effect_snd (a : Action) (g : Game) : (Action.valid_effect a g).2 = g := by
  unfold Action.valid_effect
  cases he : a.required.effect with
  | noEffect => rfl
  | mana m => rfl
  | damage n => rfl
  | draw n => rfl
  | and l => rfl
  | discard count =>
    cases hc : a.choices.effect with
    | noChoice => rfl
    | mana m => rfl
    | player p => rfl
    | card c => rfl
    | and chs =>
      simp only []
      split
      · exact Action.validDiscardList_snd a chs g
      · rfl

theorem Action.valid_snd (a : Action) (g : Game) : (a.valid g).2 = g := by
  unfold Action.valid
  have h1 := Action.valid_cost_snd a a.required.cost g
  rcases hc : Action.valid_cost a g a.required.cost with ⟨b1, g1⟩
  rw [hc] at h1
  replace h1 : g1 = g := h1
  cases b1 with
  | false => simpa using h1
  | true =>
    have h2 := Action.valid_target_snd a a.required.target g1
    rcases ht : Action.valid_target a g1 a.required.target with ⟨b2, g2⟩
    rw [ht] at h2
    replace h2 : g2 = g1 := h2
    cases b2 with
    | false => simp only [ht]; exact h2.trans h1
    | true =>
      have h3 := Action.valid_effect_snd a g2
      simp only [ht]
      exact h3.trans (h2.trans h1)

/-! ## Claim C9 (confirmed) -/

/-- C9: Action::valid leaves the game state unchanged (the state-threaded
    embedding returns the input state), and calling it again on the
    resulting state returns exactly the same outcome. -/
theorem C9_valid_pure (a : Action) (g : Game) :
    (a.valid g).2 = g ∧ a.valid ((a.valid g).2) = a.valid g := by
  have h := Action.valid_snd a g
  exact ⟨h, by rw [h]⟩



/-- C10, witness: the statement evaluated on gC10, whose active player 1
    has an empty library. -/
theorem C10_witness :
    draw_card gC10 1 = (none, { gC10 with status := GameStatus.lose 1 }) ∧
    (1 = gC10.turn.active_player →
      ∃ g2, draw_step gC10 = some g2 ∧ g2.status = GameStatus.lose 1) :=
  C10_draw_empty_library_loses gC10 1 { Player.new with id := 1 } rfl rfl

/-! ## Claim C6 (corrected) -/

/-- C6, counterexample: playing the ability of cardC6 (cost: sacrifice
    the source AND tap the source) is rejected — pay() fails on the tap
    component because the source was already sacrificed — yet the game
    state is not the state before the call: the card has moved to the
    graveyard. -/
theorem C6_counterexample :
    (play_ability gC6 2 0 actC6).map Prod.fst = some false ∧
    (play_ability gC6 2 0 actC6).map Prod.snd ≠ some gC6 ∧
    (play_ability gC6 2 0 actC6).map (fun p => (p.2.get_card 2).map (fun c => c.zone)) =
      some (some Zone.graveyard) ∧
    (gC6.get_card 2).map (fun c => c.zone) = some Zone.battlefield := by
  decide

/-- C6, amended: whenever play_card or play_ability rejects a submitted
    action at the validation layer — because the timing is illegal or the
    action's Choices do not validate against its Requirement — the game
    state after the call is exactly the state before the call; when
    payment itself fails partway (a conjunction cost whose later
    component fails after an earlier component was paid), the call still
    returns false but the earlier components' side effects remain. -/
theorem C6_rejected_before_payment_unchanged :
    (∀ (g : Game) (card_id : ObjectId) (ability_id : Nat) (a : Action),
        (a.valid g).1 = false → play_ability g card_id ability_id a = some (false, g)) ∧
    (∀ (g : Game) (card_id : ObjectId) (a : Action),
        can_play_card g card_id a.player_id = false ∨ (a.valid g).1 = false →
          play_card g card_id a = g) := by
  constructor
  · intro g card_id ability_id a hv
    have hsnd := Action.valid_snd a g
    rcases hval : a.valid g with ⟨b, g1⟩
    rw [hval] at hsnd hv
    replace hsnd : g1 = g := hsnd
    replace hv : b = false := hv
    subst hv
    rw [hsnd] at hval
    rcases hc : g.get_card card_id with _ | card
    · simp [play_ability, hc]
    · rcases ha : card.activated_abilities.get? ability_id with _ | ability
      all_goals rw [List.get?_eq_getElem?] at ha
      · simp [play_ability, hc, ha]
      · simp [play_ability, hc, ha, hval]
  · intro g card_id a h
    rcases h with hcp | hv
    · simp [play_card, hcp]
    · by_cases hcp : can_play_card g card_id a.player_id = false
      · simp [play_card, hcp]
      · have hsnd := Action.valid_snd a g
        rcases hval : a.valid g with ⟨b, g1⟩
        rw [hval] at hsnd hv
        replace hsnd : g1 = g := hsnd
        replace hv : b = false := hv
        subst hv
        rw [hsnd] at hval
        simp [play_card, hcp, hval]

/-- C6, witness: the amended statement evaluated on gC6 with an action
    whose cost choice is missing, so validation fails. -/
theorem C6_witness :
    (actC6inv.valid gC6).1 = false ∧
    play_ability gC6 2 0 actC6inv = some (false, gC6) ∧
    play_card gC6 2 actC6inv = gC6 :=
  ⟨by decide,
   C6_rejected_before_payment_unchanged.1 gC6 2 0 actC6inv (by decide),
   C6_rejected_before_payment_unchanged.2 gC6 2 actC6inv (Or.inr (by decide))⟩

/-! ## Claim C7 (corrected) -/

theorem Game.get_player_id (g : Game) (player_id : ObjectId) (p : Player)
    (h : g.get_player player_id = some p) : p.id = player_id := by
  unfold Game.get_player at h
  have := List.find?_some h
  simpa using this

theorem find_map_set (ps : List Player) (player_id : ObjectId) (q p : Player)
    (hq : ps.find? (fun r => r.id = player_id) = some q) (hpid : p.id = player_id) :
    (ps.map (fun r => if r.id = player_id then p else r)).find?
      (fun r => r.id = player_id) = some p := by
  induction ps with
  | nil => simp at hq
  | cons r rest ih =>
    by_cases hr : r.id = player_id
    · simp [List.find?_cons, hr, hpid]
    · rw [List.find?_cons_of_neg _ (by simpa using hr)] at hq
      simp only [List.map_cons, if_neg hr]
      rw [List.find?_cons_of_neg _ (by simpa using hr)]
      exact ih hq

theorem Game.get_player_setPlayer_same (g : Game) (player_id : ObjectId) (q p : Player)
    (hq : g.get_player player_id = some q) (hpid : p.id = player_id) :
    (g.setPlayer player_id p).get_player player_id = some p := by
  unfold Game.get_player Game.setPlayer at *
  exact find_map_set g.players player_id q p hq hpid

/-- start_resolve after a push pops exactly the pushed entry into the
    resolving slot, restoring the previous stack. -/
theorem start_resolve_pushStack (g : Game) (e : Resolve) :
    start_resolve (g.pushStack e) = some { g with resolve := some e } := by
  simp [start_resolve, Game.pushStack, List.dropLast_concat, List.getLast?_concat]

/-- Unfolding of resolve_choice when the resolving slot holds a single
    (non-And) mana effect: resolve_effect runs once and the slot entry is
    written back. -/
theorem resolve_choice_mana (g : Game) (r : ResolveChoice)
    (a : Action) (pid : ObjectId) (m : Mana) :
    resolve_choice { g with resolve := some (Resolve.mk (Effect.mana m) a pid ResolveKind.ability) } r =
      (match resolve_effect { g with resolve := some (Resolve.mk (Effect.mana m) a pid ResolveKind.ability) }
          (Effect.mana m) a r with
       | (Except.error err, g1) =>
         (Except.error err, { g1 with resolve := some (Resolve.mk (Effect.mana m) a pid ResolveKind.ability) })
       | (Except.ok _, g1) =>
         (Except.ok none, { g1 with resolve := some (Resolve.mk (Effect.mana m) a pid ResolveKind.ability) })) := by
  unfold resolve_choice
  dsimp only
  rcases hre : resolve_effect { g with resolve := some (Resolve.mk (Effect.mana m) a pid ResolveKind.ability) }
      (Effect.mana m) a r with ⟨er | u, g1⟩ <;> rfl

/-- Unfolding of play_ability along the successful mana-ability path, up
    to the synchronous resolution. -/
theorem play_ability_mana_run (g : Game) (card_id : ObjectId) (ability_id : Nat)
    (a : Action) (card : Card) (ability : ActivatedAbility) (m : Mana) (gp : Game)
    (hcard : g.get_card card_id = some card)
    (hab : card.activated_abilities.get? ability_id = some ability)
    (heff : ability.effect = Effect.mana m)
    (hval : a.valid g = (true, g))
    (hpay : a.pay g = (true, gp)) :
    play_ability g card_id ability_id a =
      (match resolve_choice { gp with resolve := some (Resolve.mk (Effect.mana m) a card.owner_id ResolveKind.ability) }
          { player_id := card.owner_id, choice := a.choices.effect,
            effect := Effect.mana m } with
       | (Except.error _, _) => none
       | (Except.ok _, g5) =>
         (match end_resolve g5 with
          | none => none
          | some g6 => some (true, g6))) := by
  unfold play_ability
  simp only [hcard, hab, heff, hval, hpay, start_resolve_pushStack]

/-- get_player only reads the players list. -/
theorem get_player_eq_of_players (g1 g2 : Game) (h : g1.players = g2.players)
    (pid : ObjectId) : g1.get_player pid = g2.get_player pid := by
  unfold Game.get_player
  rw [h]

/-- Success of resolve_effect on a mana effect characterised: the
    controller's pool is incremented by the chosen mana (wildcard
    producer) or the produced mana, and nothing else changes. -/
theorem resolve_effect_mana (g : Game) (a : Action) (r : ResolveChoice) (m : Mana)
    (u : Unit) (gE : Game)
    (hok : resolve_effect g (Effect.mana m) a r = (Except.ok u, gE)) :
    (if m.has .any then
       ∃ mc owner, r.choice = Choice.mana mc ∧
         g.get_player a.player_id = some owner ∧
         gE = g.setPlayer a.player_id { owner with mana := owner.mana.add mc }
     else
       ∃ owner, g.get_player a.player_id = some owner ∧
         gE = g.setPlayer a.player_id { owner with mana := owner.mana.add m }) := by
  unfold resolve_effect at hok
  by_cases hvc : r.valid_choice g = false
  · rw [if_pos hvc] at hok
    exact absurd hok (by simp)
  · rw [if_neg hvc] at hok
    rcases hgp : g.get_player a.player_id with _ | owner <;> rw [hgp] at hok
    · exact absurd hok (by simp)
    · dsimp only at hok
      by_cases hany : m.has .any = true
      · rw [if_pos hany] at hok
        rw [if_pos hany]
        rcases hch : r.choice with _ | mc | p | c | l <;> rw [hch] at hok <;>
          first
          | exact ⟨mc, owner, rfl, rfl, (congrArg Prod.snd hok).symm⟩
          | exact absurd hok (by simp)
      · rw [if_neg hany] at hok
        rw [if_neg hany]
        exact ⟨owner, rfl, (congrArg Prod.snd hok).symm⟩

/-- C7, counterexample: playing the any-color mana ability of the
    City-of-Brass-style card cardC7 succeeds (returns true) and resolves
    synchronously, but the waiting stack does not hold exactly the
    entries it held before the call: paying the tap cost queued the
    card's triggered ability, so the stack has grown from 0 to 1 entry. -/
theorem C7_counterexample :
    (play_ability gC7 3 0 actC7).map Prod.fst = some true ∧
    gC7.stack.length = 0 ∧
    (play_ability gC7 3 0 actC7).map (fun p => p.2.stack.length) = some 1 := by
  have hval : actC7.valid gC7 = (true, gC7) := by decide
  have hpay : actC7.pay gC7 = (true, gpC7) := by decide
  have hrun := play_ability_mana_run gC7 3 0 actC7 cardC7
      { cost := .tap .source, effect := .mana ⟨0, 0, 0, 0, 0, 0, 1⟩, target := .noTarget }
      ⟨0, 0, 0, 0, 0, 0, 1⟩ gpC7 rfl rfl rfl hval hpay
  refine ⟨?_, rfl, ?_⟩ <;> rw [hrun, resolve_choice_mana] <;> decide

/-- C7, amended: playing an activated ability whose effect is a mana
    effect resolves synchronously within the same play_ability call: when
    it returns true, the controller's mana pool has been incremented by
    the produced (or chosen, for wildcard) mana, the resolving slot is
    cleared, and the waiting stack holds exactly the entries it held
    immediately after payment (payment may itself queue triggered-ability
    entries; the synchronous resolution pops only the mana entry). -/
theorem C7_mana_ability_amended (g : Game) (card_id : ObjectId) (ability_id : Nat)
    (a : Action) (card : Card) (ability : ActivatedAbility) (m : Mana) (g2 : Game)
    (hcard : g.get_card card_id = some card)
    (hab : card.activated_abilities.get? ability_id = some ability)
    (heff : ability.effect = Effect.mana m)
    (hrun : play_ability g card_id ability_id a = some (true, g2)) :
    C7Post g a m g2 := by
  have hab' := hab
  rw [List.get?_eq_getElem?] at hab'
  have hvsnd := Action.valid_snd a g
  rcases hval : a.valid g with ⟨bv, gv⟩
  rw [hval] at hvsnd
  replace hvsnd : gv = g := hvsnd
  rw [hvsnd] at hval
  cases bv with
  | false => simp [play_ability, hcard, hab', hval] at hrun
  | true =>
    rcases hpay : a.pay g with ⟨bp, gp⟩
    cases bp with
    | false => simp [play_ability, hcard, hab', hval, hpay] at hrun
    | true =>
      rw [play_ability_mana_run g card_id ability_id a card ability m gp
            hcard hab heff hval hpay, resolve_choice_mana] at hrun
      rcases hre : resolve_effect { gp with resolve := some (Resolve.mk (Effect.mana m) a card.owner_id ResolveKind.ability) }
          (Effect.mana m) a
          { player_id := card.owner_id, choice := a.choices.effect,
            effect := Effect.mana m } with ⟨er | u, gE⟩ <;>
        rw [hre] at hrun
      · simp at hrun
      · simp only [end_resolve] at hrun
        replace hrun := Option.some.inj hrun
        replace hrun := ((Prod.mk.injEq _ _ _ _).mp hrun).2
        subst hrun
        have hchar := resolve_effect_mana _ a _ m u gE hre
        refine ⟨by rw [hval], by rw [hpay], rfl, ?_, ?_⟩
        · by_cases hany : m.has .any = true
          · rw [if_pos hany] at hchar
            rcases hchar with ⟨mc, owner, hch, howner, hgE⟩
            rw [hpay, hgE]
            rfl
          · rw [if_neg hany] at hchar
            rcases hchar with ⟨owner, howner, hgE⟩
            rw [hpay, hgE]
            rfl
        · by_cases hany : m.has .any = true
          · rw [if_pos hany]
            rw [if_pos hany] at hchar
            rcases hchar with ⟨mc, owner, hch, howner, hgE⟩
            refine ⟨mc, owner, hch, by rw [hpay]; exact howner, ?_⟩
            rw [hgE]
            exact (get_player_eq_of_players _ _ rfl a.player_id).trans
              (Game.get_player_setPlayer_same _ a.player_id owner _ howner
                (Game.get_player_id _ a.player_id owner howner))
          · rw [if_neg hany]
            rw [if_neg hany] at hchar
            rcases hchar with ⟨owner, howner, hgE⟩
            refine ⟨owner, by rw [hpay]; exact howner, ?_⟩
            rw [hgE]
            exact (get_player_eq_of_players _ _ rfl a.player_id).trans
              (Game.get_player_setPlayer_same _ a.player_id owner _ howner
                (Game.get_player_id _ a.player_id owner howner))

/-- C7, witness: the amended statement evaluated on the successful play
    of the Forest mana ability (gC7F, actC7F). -/
theorem C7_witness : C7Post gC7F actC7F ⟨0, 0, 0, 0, 1, 0, 0⟩ gC7Fresult :=
  C7_mana_ability_amended gC7F 3 0 actC7F cardC7F
    { cost := .tap .source, effect := .mana ⟨0, 0, 0, 0, 1, 0, 0⟩, target := .noTarget }
    ⟨0, 0, 0, 0, 1, 0, 0⟩ gC7Fresult rfl rfl rfl
    (by
      rw [play_ability_mana_run gC7F 3 0 actC7F cardC7F
            { cost := .tap .source, effect := .mana ⟨0, 0, 0, 0, 1, 0, 0⟩,
              target := .noTarget }
            ⟨0, 0, 0, 0, 1, 0, 0⟩ gpC7F rfl rfl rfl (by decide) (by decide),
          resolve_choice_mana]
      decide)

/-! ## Lemmas for the combat claims (C2, C3) -/

theorem find?_cons_neg {α : Type} (p : α → Bool) (a : α) (l : List α) (h : p a = false) :
    (a :: l).find? p = l.find? p := by
  simp [List.find?_cons, h]

theorem find?_append_false {α : Type} (p : α → Bool) (l : List α) (x : α) (h : p x = false) :
    (l ++ [x]).find? p = l.find? p := by
  induction l with
  | nil => rw [List.nil_append, find?_cons_neg _ _ _ h]
  | cons a l ih =>
    by_cases hpa : p a = true
    · simp [List.find?_cons, hpa]
    · rw [List.cons_append, find?_cons_neg _ _ _ (by simpa using hpa),
        find?_cons_neg _ _ _ (by simpa using hpa)]
      exact ih

theorem insertPair_of_not_mem {κ α : Type} [DecidableEq κ] (m : List (κ × α)) (k : κ) (v : α)
    (h : ∀ p ∈ m, p.1 ≠ k) : insertPair m k v = m ++ [(k, v)] := by
  have hna : ¬(m.any (fun p => p.1 = k) = true) := by
    simp only [List.any_eq_true, decide_eq_true_eq]
    rintro ⟨p, hp, hpk⟩
    exact h p hp hpk
  unfold insertPair
  rw [if_neg hna]

theorem insertPair_single {κ α : Type} [DecidableEq κ] (k : κ) (v w : α) :
    insertPair [(k, v)] k w = [(k, w)] := by
  simp [insertPair]

theorem find?_replace_self {κ α : Type} [DecidableEq κ] (m : List (κ × α)) (k : κ) (v : α) :
    ((m.map (fun p => if p.1 = k then (k, v) else p)).find?
        (fun p => p.1 = k)).map (fun p => p.2) =
      if m.any (fun p => p.1 = k) then some v else none := by
  induction m with
  | nil => simp
  | cons p rest ih =>
    by_cases hp : p.1 = k
    · simp [hp]
    · rw [List.map_cons, if_neg hp, find?_cons_neg _ _ _ (by simp [hp]), ih]
      have hd : (decide (p.1 = k)) = false := by simp [hp]
      rw [List.any_cons, hd, Bool.false_or]

theorem find?_replace_ne {κ α : Type} [DecidableEq κ] (m : List (κ × α)) (k k2 : κ) (v : α)
    (h : k2 ≠ k) :
    (m.map (fun p => if p.1 = k then (k, v) else p)).find? (fun p => p.1 = k2) =
      m.find? (fun p => p.1 = k2) := by
  induction m with
  | nil => rfl
  | cons p rest ih =>
    by_cases hpk : p.1 = k
    · rw [List.map_cons, if_pos hpk,
        find?_cons_neg (fun p => p.1 = k2) (k, v) _ (by simp; exact fun he => h he.symm),
        find?_cons_neg (fun p => p.1 = k2) p _ (by simp [hpk]; exact fun he => h he.symm)]
      exact ih
    · by_cases hp2 : p.1 = k2
      · rw [List.map_cons, if_neg hpk, List.find?_cons_of_pos _ (by simp [hp2]),
          List.find?_cons_of_pos _ (by simp [hp2])]
      · rw [List.map_cons, if_neg hpk, find?_cons_neg _ _ _ (by simp [hp2]),
          find?_cons_neg _ _ _ (by simp [hp2])]
        exact ih

theorem lookupPair_insertPair_self {κ α : Type} [DecidableEq κ] (m : List (κ × α))
    (k : κ) (v : α) : lookupPair (insertPair m k v) k = some v := by
  unfold insertPair lookupPair
  by_cases hmem : m.any (fun p => p.1 = k) = true
  · rw [if_pos hmem, find?_replace_self, if_pos hmem]
  · rw [if_neg hmem]
    have h1 : m.find? (fun p => p.1 = k) = none := by
      rw [List.find?_eq_none]
      intro p hp
      simp only [List.any_eq_true, decide_eq_true_eq] at hmem
      simpa using fun he => hmem ⟨p, hp, he⟩
    induction m with
    | nil => simp
    | cons p rest ih =>
      have hp : ¬p.1 = k := by
        intro he
        rw [List.find?_cons_of_pos _ (by simpa using he)] at h1
        exact Option.noConfusion h1
      rw [List.cons_append, find?_cons_neg _ _ _ (by simp [hp])]
      rw [find?_cons_neg _ _ _ (by simp [hp])] at h1
      exact ih (by simp only [List.any_cons, Bool.or_eq_true] at hmem ⊢; exact fun h2 => hmem (Or.inr h2)) h1

theorem lookupPair_insertPair_ne {κ α : Type} [DecidableEq κ] (m : List (κ × α))
    (k k2 : κ) (v : α) (h : k2 ≠ k) :
    lookupPair (insertPair m k v) k2 = lookupPair m k2 := by
  unfold insertPair lookupPair
  by_cases hmem : m.any (fun p => p.1 = k) = true
  · rw [if_pos hmem, find?_replace_ne _ _ _ _ h]
  · rw [if_neg hmem, find?_append_false _ _ _ (by simp; exact fun he => h he.symm)]

theorem btGet_btInsert_ne (g : Game) (b b2 : ObjectId) (v : Int) (h : b2 ≠ b) :
    (g.btInsert b v).btGet b2 = g.btGet b2 := by
  unfold Game.btGet Game.btInsert
  simp only [lookupPair_insertPair_ne _ _ _ _ h]

theorem i16_saturating_sub_of_bounds (a b : Int) (h0 : 0 ≤ a - b) (h1 : a - b ≤ 32767) :
    i16_saturating_sub a b = a - b := by
  unfold i16_saturating_sub
  omega

theorem u16_i16_roundtrip (x : Int) (h0 : 0 ≤ x) (h1 : x < 32768) :
    u16_as_i16 (i16_as_u16 x) = x := by
  unfold u16_as_i16 i16_as_u16
  omega

theorem i16_as_u16_ne_zero (x : Int) (h0 : 0 < x) (h1 : x < 65536) :
    i16_as_u16 x ≠ 0 := by
  unfold i16_as_u16
  omega

/-- dealOneBlocker only rewrites cards: players, the whole turn record
    and the status are untouched. -/
theorem dealOneBlocker_frame (g : Game) (attacker_id : ObjectId) (ty : AttackType)
    (ca cc : List ObjectId) (b : ObjectId) :
    (dealOneBlocker g attacker_id ty ca cc b).players = g.players ∧
    (dealOneBlocker g attacker_id ty ca cc b).turn = g.turn ∧
    (dealOneBlocker g attacker_id ty ca cc b).status = g.status := by
  unfold dealOneBlocker
  dsimp only
  repeat' split
  all_goals exact ⟨rfl, rfl, rfl⟩

theorem dealOneBlocker_fold_frame (g : Game) (attacker_id : ObjectId) (ty : AttackType)
    (ca cc : List ObjectId) (bs : List ObjectId) :
    (bs.foldl (fun g b => dealOneBlocker g attacker_id ty ca cc b) g).players = g.players ∧
    (bs.foldl (fun g b => dealOneBlocker g attacker_id ty ca cc b) g).turn = g.turn ∧
    (bs.foldl (fun g b => dealOneBlocker g attacker_id ty ca cc b) g).status = g.status := by
  refine ⟨?_, ?_, ?_⟩
  · exact foldl_preserves (fun g => g.players) _
      (fun g b => (dealOneBlocker_frame g attacker_id ty ca cc b).1) bs g
  · exact foldl_preserves (fun g => g.turn) _
      (fun g b => (dealOneBlocker_frame g attacker_id ty ca cc b).2.1) bs g
  · exact foldl_preserves (fun g => g.status) _
      (fun g b => (dealOneBlocker_frame g attacker_id ty ca cc b).2.2) bs g

/-- A non-trample attacker with at least one declared blocker never
    touches the players (its round deals no player damage). -/
theorem dealOneAttacker_blocked_players (g : Game) (attacker_id : ObjectId)
    (acard : Card) (atk : Attacker) (ca cc : List ObjectId) (ty : AttackType)
    (hcard : g.get_card attacker_id = some acard)
    (htr : acard.static_abilities.contains .trample = false)
    (hatk : g.getAttacker attacker_id = some atk)
    (hbl : atk.blockers ≠ []) :
    (dealOneAttacker ca cc ty g attacker_id).players = g.players := by
  unfold dealOneAttacker
  simp only [hcard, htr, hatk, Bool.not_false, Bool.true_and]
  have hlen : decide (atk.blockers.length > 0) = true := by
    simp [List.length_pos, hbl]
  simp only [hlen]
  have hfold := dealOneBlocker_fold_frame
    (g.setAttacker attacker_id { atk with blocked := true }) attacker_id ty ca cc atk.blockers
  have hatk2 : (atk.blockers.foldl
      (fun g b => dealOneBlocker g attacker_id ty ca cc b)
      (g.setAttacker attacker_id { atk with blocked := true })).getAttacker attacker_id =
      some { atk with blocked := true } := by
    unfold Game.getAttacker
    rw [show (atk.blockers.foldl (fun g b => dealOneBlocker g attacker_id ty ca cc b)
        (g.setAttacker attacker_id { atk with blocked := true })).turn =
        (g.setAttacker attacker_id { atk with blocked := true }).turn from hfold.2.1]
    exact lookupPair_insertPair_self _ _ _
  rw [hatk2]
  dsimp only
  rcases hlp : lookupPair atk.attacks ty with _ | attack
  · exact hfold.1
  · dsimp only
    rw [if_neg (by simp)]
    exact hfold.1

/-- The automatic distribution loop fully covers each blocker's ledger
    toughness in order and leaves exactly the spillover as the attack's
    current power, when the blockers' total toughness is below the
    available power. -/
theorem autoDistribute_spec (bs : List ObjectId) :
    ∀ (g : Game) (a pdef : ObjectId) (blockers0 : List ObjectId) (blocked0 : Bool)
      (asg : List (ObjectId × Int)) (powdef D : Int) (tf : ObjectId → Int),
    g.turn.combat.attackers =
      [(a, { id := a, target := pdef,
             attacks := [(AttackType.regular,
               { power := { current := D, default := powdef }, assignments := asg })],
             blockers := blockers0, blocked := blocked0 })] →
    (∀ b ∈ bs, g.btGet b = tf b) →
    (∀ b ∈ bs, 0 ≤ tf b) →
    (∀ b ∈ bs, ∀ p ∈ asg, p.1 ≠ b) →
    bs.Nodup →
    (bs.map tf).sum < D →
    D ≤ 32767 →
    ∃ g2, autoDistribute g a AttackType.regular bs D = some g2 ∧
      g2.players = g.players ∧
      g2.cards = g.cards ∧
      g2.status = g.status ∧
      g2.turn.step = g.turn.step ∧
      g2.turn.combat.attackers =
        [(a, { id := a, target := pdef,
               attacks := [(AttackType.regular,
                 { power := { current := D - (bs.map tf).sum, default := powdef },
                   assignments := asg ++ bs.map (fun b => (b, tf b)) })],
               blockers := blockers0, blocked := blocked0 })] := by
  induction bs with
  | nil =>
    intro g a pdef blockers0 blocked0 asg powdef D tf hatk _ _ _ _ _ _
    exact ⟨g, rfl, rfl, rfl, rfl, rfl, by simpa using hatk⟩
  | cons b rest ih =>
    intro g a pdef blockers0 blocked0 asg powdef D tf hatk hbt h0 hasg hnd hsum hD
    have h0b : 0 ≤ tf b := h0 b (List.mem_cons_self b rest)
    have hrest0 : 0 ≤ (rest.map tf).sum := by
      apply List.sum_nonneg
      intro x hx
      rcases List.mem_map.mp hx with ⟨b2, hb2, rfl⟩
      exact h0 b2 (List.mem_cons_of_mem _ hb2)
    have hsum2 : tf b + (rest.map tf).sum < D := by
      simpa [List.map_cons, List.sum_cons] using hsum
    have hbnotrest : b ∉ rest := (List.nodup_cons.mp hnd).1
    have hgb : g.btGet b = tf b := hbt b (List.mem_cons_self b rest)
    have hga2 : g.getAttacker a = some
        { id := a, target := pdef,
          attacks := [(AttackType.regular,
            { power := { current := D, default := powdef }, assignments := asg })],
          blockers := blockers0, blocked := blocked0 } := by
      unfold Game.getAttacker
      rw [hatk]
      simp [lookupPair]
    obtain ⟨g3, hrun, hp, hc, hst, hstep, hatkF⟩ :=
      ih ((g.btInsert b (tf b - tf b)).setAttacker a
            { id := a, target := pdef,
              attacks := [(AttackType.regular,
                { power := { current := D - tf b, default := powdef },
                  assignments := asg ++ [(b, tf b)] })],
              blockers := blockers0, blocked := blocked0 })
        a pdef blockers0 blocked0 (asg ++ [(b, tf b)]) powdef (D - tf b) tf
        (by
          unfold Game.setAttacker Game.btInsert
          dsimp only
          rw [hatk, insertPair_single])
        (by
          intro b2 hb2
          have hne : b2 ≠ b := fun he => hbnotrest (he ▸ hb2)
          have h1 : ((g.btInsert b (tf b - tf b)).setAttacker a
              { id := a, target := pdef,
                attacks := [(AttackType.regular,
                  { power := { current := D - tf b, default := powdef },
                    assignments := asg ++ [(b, tf b)] })],
                blockers := blockers0, blocked := blocked0 }).btGet b2 =
              (g.btInsert b (tf b - tf b)).btGet b2 := rfl
          rw [h1, btGet_btInsert_ne _ _ _ _ hne]
          exact hbt b2 (List.mem_cons_of_mem _ hb2))
        (fun b2 hb2 => h0 b2 (List.mem_cons_of_mem _ hb2))
        (by
          intro b2 hb2 p hp
          rcases List.mem_append.mp hp with hp1 | hp2
          · exact hasg b2 (List.mem_cons_of_mem _ hb2) p hp1
          · rcases List.mem_singleton.mp hp2 with rfl
            exact fun he => hbnotrest (by rw [show b = b2 from he]; exact hb2))
        ((List.nodup_cons.mp hnd).2)
        (by omega)
        (by omega)
    refine ⟨g3, ?_, ?_, ?_, ?_, ?_, ?_⟩
    · simp only [autoDistribute]
      rw [if_neg (show ¬D ≤ 0 by omega)]
      simp only [hgb]
      rw [min_eq_left (show tf b ≤ D by omega)]
      have hbtga : ∀ (v : Int), (g.btInsert b v).getAttacker a = g.getAttacker a :=
        fun _ => rfl
      simp only [hbtga, hga2]
      have hlk : lookupPair
          [(AttackType.regular,
            ({ power := { current := D, default := powdef }, assignments := asg } : Attack))]
          AttackType.regular =
          some { power := { current := D, default := powdef }, assignments := asg } := by
        simp [lookupPair]
      simp only [hlk]
      rw [i16_saturating_sub_of_bounds D (tf b) (by omega) (by omega)]
      rw [insertPair_of_not_mem asg b (tf b)
        (fun p hp => hasg b (List.mem_cons_self b rest) p hp)]
      rw [insertPair_single]
      exact hrun
    · exact hp
    · exact hc
    · exact hst
    · exact hstep
    · rw [hatkF, List.map_cons, List.sum_cons, List.map_cons, List.append_assoc,
        List.singleton_append, sub_sub]


theorem get_card_eq_of_cards (g1 g2 : Game) (h : g1.cards = g2.cards)
    (card_id : ObjectId) : g1.get_card card_id = g2.get_card card_id := by
  unfold Game.get_card lookupPair
  rw [h]

/-- The blocker-toughness snapshot loop: it only writes the ledger, and
    with distinct blockers each blocker ends at its card's toughness. -/
theorem sbtFold_spec (bs : List ObjectId) :
    ∀ (g : Game) (tf : ObjectId → Int),
    (∀ b ∈ bs, (match g.get_card b with
        | some blocker => blocker.state.toughness.current
        | none => 0) = tf b) →
    bs.Nodup →
    (sbtFold bs g).cards = g.cards ∧
    (sbtFold bs g).players = g.players ∧
    (sbtFold bs g).status = g.status ∧
    (sbtFold bs g).turn.step = g.turn.step ∧
    (sbtFold bs g).turn.combat.attackers = g.turn.combat.attackers ∧
    (∀ b2, b2 ∉ bs → (sbtFold bs g).btGet b2 = g.btGet b2) ∧
    (∀ b ∈ bs, (sbtFold bs g).btGet b = tf b) := by
  induction bs with
  | nil =>
    intro g tf _ _
    exact ⟨rfl, rfl, rfl, rfl, rfl, fun _ _ => rfl, fun b hb => absurd hb (List.not_mem_nil b)⟩
  | cons b rest ih =>
    intro g tf htf hnd
    have hgb : (match g.get_card b with
        | some blocker => blocker.state.toughness.current
        | none => 0) = tf b := htf b (List.mem_cons_self b rest)
    have hstep : sbtFold (b :: rest) g = sbtFold rest (g.btInsert b (tf b)) := by
      unfold sbtFold
      rw [List.foldl_cons]
      dsimp only
      rw [hgb]
    have htf2 : ∀ b2 ∈ rest, (match (g.btInsert b (tf b)).get_card b2 with
        | some blocker => blocker.state.toughness.current
        | none => 0) = tf b2 :=
      fun b2 hb2 => htf b2 (List.mem_cons_of_mem _ hb2)
    obtain ⟨hc, hp, hst, hsp, hat, hout, hin⟩ :=
      ih (g.btInsert b (tf b)) tf htf2 (List.nodup_cons.mp hnd).2
    have hbrest : b ∉ rest := (List.nodup_cons.mp hnd).1
    refine ⟨?_, ?_, ?_, ?_, ?_, ?_, ?_⟩
    · rw [hstep]; exact hc
    · rw [hstep]; exact hp
    · rw [hstep]; exact hst
    · rw [hstep]; exact hsp
    · rw [hstep]; exact hat
    · intro b2 hb2
      have hne : b2 ≠ b := fun he => hb2 (he ▸ List.mem_cons_self b rest)
      rw [hstep, hout b2 (fun hmem => hb2 (List.mem_cons_of_mem _ hmem)),
        btGet_btInsert_ne _ _ _ _ hne]
    · intro b2 hb2
      rcases List.mem_cons.mp hb2 with rfl | hmem
      · rw [hstep, hout b2 hbrest]
        unfold Game.btGet Game.btInsert
        dsimp only
        rw [lookupPair_insertPair_self]
        rfl
      · rw [hstep]
        exact hin b2 hmem

/-- set_blockers_toughness on a single-attacker combat reduces to the
    ledger loop over that attacker's blockers. -/
theorem sbt_single (g : Game) (a : ObjectId) (atk : Attacker) (tf : ObjectId → Int)
    (hatk : g.turn.combat.attackers = [(a, atk)])
    (hbt : ∀ b ∈ atk.blockers, (match g.get_card b with
        | some blocker => blocker.state.toughness.current
        | none => 0) = tf b)
    (hnd : atk.blockers.Nodup) :
    (set_blockers_toughness g).cards = g.cards ∧
    (set_blockers_toughness g).players = g.players ∧
    (set_blockers_toughness g).status = g.status ∧
    (set_blockers_toughness g).turn.step = g.turn.step ∧
    (set_blockers_toughness g).turn.combat.attackers = g.turn.combat.attackers ∧
    (∀ b ∈ atk.blockers, (set_blockers_toughness g).btGet b = tf b) := by
  have h1 : set_blockers_toughness g = sbtFold atk.blockers g := by
    unfold set_blockers_toughness
    rw [hatk]
    rfl
  obtain ⟨hc, hp, hst, hsp, hat, _, hin⟩ := sbtFold_spec atk.blockers g tf hbt hnd
  rw [h1]
  exact ⟨hc, hp, hst, hsp, hat, hin⟩


/-- combat_damage_step_start on a single regular attacker with fresh
    power P and auto-distributable blockers: the snapshot plus the
    automatic distribution leave assignments covering each blocker's
    toughness and current power P minus the blockers' total toughness. -/
theorem combat_damage_step_start_single (g : Game) (a pdef : ObjectId) (P : Int)
    (bs : List ObjectId) (tf : ObjectId → Int)
    (hatk : g.turn.combat.attackers =
      [(a, { id := a, target := pdef,
             attacks := [(AttackType.regular,
               { power := { current := P, default := P }, assignments := [] })],
             blockers := bs, blocked := false })])
    (hbt : ∀ b ∈ bs, (match g.get_card b with
        | some blocker => blocker.state.toughness.current
        | none => 0) = tf b)
    (h0 : ∀ b ∈ bs, 0 ≤ tf b)
    (hnd : bs.Nodup)
    (hsum : (bs.map tf).sum < P)
    (hP : P ≤ 32767) :
    ∃ g1, combat_damage_step_start g = some g1 ∧
      g1.players = g.players ∧
      g1.cards = g.cards ∧
      g1.status = g.status ∧
      g1.turn.combat.attackers =
        [(a, { id := a, target := pdef,
               attacks := [(AttackType.regular,
                 { power := { current := P - (bs.map tf).sum, default := P },
                   assignments := bs.map (fun b => (b, tf b)) })],
               blockers := bs, blocked := false })] := by
  have hatk0 : ({ g with turn.step := Step.combatDamage } : Game).turn.combat.attackers =
      [(a, { id := a, target := pdef,
             attacks := [(AttackType.regular,
               { power := { current := P, default := P }, assignments := [] })],
             blockers := bs, blocked := false })] := hatk
  obtain ⟨hc1, hp1, hst1, hsp1, hat1, hbt1⟩ :=
    sbt_single { g with turn.step := Step.combatDamage } a
      { id := a, target := pdef,
        attacks := [(AttackType.regular,
          { power := { current := P, default := P }, assignments := [] })],
        blockers := bs, blocked := false } tf hatk0 hbt hnd
  have hatkS : (set_blockers_toughness
      { g with turn.step := Step.combatDamage }).turn.combat.attackers =
      [(a, { id := a, target := pdef,
             attacks := [(AttackType.regular,
               { power := { current := P, default := P }, assignments := [] })],
             blockers := bs, blocked := false })] := hat1.trans hatk0
  obtain ⟨g2, hrun, hp2, hc2, hst2, hstep2, hatk2⟩ :=
    autoDistribute_spec bs (set_blockers_toughness { g with turn.step := Step.combatDamage })
      a pdef bs false [] P P tf hatkS hbt1 h0
      (fun b hb p hp => absurd hp (List.not_mem_nil p)) hnd hsum hP
  refine ⟨g2, ?_, ?_, ?_, ?_, ?_⟩
  · unfold combat_damage_step_start
    rw [List.foldl_cons, List.foldl_cons, List.foldl_nil]
    dsimp only
    rw [hatkS]
    rw [List.foldl_cons, List.foldl_nil, List.foldl_cons, List.foldl_nil]
    dsimp only
    have hlkft : lookupPair
        [(AttackType.regular,
          ({ power := { current := P, default := P }, assignments := [] } : Attack))]
        AttackType.firstStrike = none := by
      simp [lookupPair]
    have hlkreg : lookupPair
        [(AttackType.regular,
          ({ power := { current := P, default := P }, assignments := [] } : Attack))]
        AttackType.regular =
        some { power := { current := P, default := P }, assignments := [] } := by
      simp [lookupPair]
    rw [hlkft, hlkreg]
    exact hrun
  · exact hp2.trans hp1
  · exact hc2.trans hc1
  · exact hst2.trans hst1
  · exact hatk2


/-- A lone trample attacker with spillable power S deals exactly S to
    the defending player in a damage pass. -/
theorem deal_combat_damage_trample_spill (g : Game) (a pdef : ObjectId) (S Pd : Int)
    (bs : List ObjectId) (asg : List (ObjectId × Int)) (acard : Card) (player : Player)
    (ca cc : List ObjectId)
    (hatk : g.turn.combat.attackers =
      [(a, { id := a, target := pdef,
             attacks := [(AttackType.regular,
               { power := { current := S, default := Pd }, assignments := asg })],
             blockers := bs, blocked := false })])
    (hcard : g.get_card a = some acard)
    (htr : acard.static_abilities.contains .trample = true)
    (hca : ca.contains a = true)
    (hplayer : g.get_player pdef = some player)
    (hS : 0 < S) (hS2 : S < 32768) :
    (deal_combat_damage g ca cc AttackType.regular).get_player pdef =
      some { player with life := player.life - S } := by
  unfold deal_combat_damage
  rw [hatk]
  rw [show List.map (fun p => p.1)
      [(a, ({ id := a, target := pdef,
              attacks := [(AttackType.regular,
                { power := { current := S, default := Pd }, assignments := asg })],
              blockers := bs, blocked := false } : Attacker))] = [a] from rfl]
  rw [List.foldl_cons, List.foldl_nil]
  unfold dealOneAttacker
  rw [hcard]
  dsimp only
  rw [htr]
  have hga : g.getAttacker a = some
      { id := a, target := pdef,
        attacks := [(AttackType.regular,
          { power := { current := S, default := Pd }, assignments := asg })],
        blockers := bs, blocked := false } := by
    unfold Game.getAttacker
    rw [hatk]
    simp [lookupPair]
  rw [hga]
  dsimp only
  have hfold := dealOneBlocker_fold_frame
    (g.setAttacker a
      { id := a, target := pdef,
        attacks := [(AttackType.regular,
          { power := { current := S, default := Pd }, assignments := asg })],
        blockers := bs, blocked := (!true && decide (bs.length > 0)) })
    a AttackType.regular ca cc bs
  have hga2 : (bs.foldl (fun g b => dealOneBlocker g a AttackType.regular ca cc b)
      (g.setAttacker a
        { id := a, target := pdef,
          attacks := [(AttackType.regular,
            { power := { current := S, default := Pd }, assignments := asg })],
          blockers := bs, blocked := (!true && decide (bs.length > 0)) })).getAttacker a =
      some { id := a, target := pdef,
             attacks := [(AttackType.regular,
               { power := { current := S, default := Pd }, assignments := asg })],
             blockers := bs, blocked := (!true && decide (bs.length > 0)) } := by
    unfold Game.getAttacker
    rw [show (bs.foldl (fun g b => dealOneBlocker g a AttackType.regular ca cc b)
        (g.setAttacker a
          { id := a, target := pdef,
            attacks := [(AttackType.regular,
              { power := { current := S, default := Pd }, assignments := asg })],
            blockers := bs, blocked := (!true && decide (bs.length > 0)) })).turn =
        (g.setAttacker a
          { id := a, target := pdef,
            attacks := [(AttackType.regular,
              { power := { current := S, default := Pd }, assignments := asg })],
            blockers := bs, blocked := (!true && decide (bs.length > 0)) }).turn from
      hfold.2.1]
    exact lookupPair_insertPair_self _ _ _
  rw [hga2]
  dsimp only
  rw [show lookupPair
      [(AttackType.regular,
        ({ power := { current := S, default := Pd }, assignments := asg } : Attack))]
      AttackType.regular =
      some { power := { current := S, default := Pd }, assignments := asg } from by
    simp [lookupPair]]
  dsimp only
  rw [if_pos (by simpa using hca)]
  unfold deal_player_damage
  rw [if_neg (by
    have := i16_as_u16_ne_zero S hS (by omega)
    simpa using this)]
  have hgp2 : (bs.foldl (fun g b => dealOneBlocker g a AttackType.regular ca cc b)
      (g.setAttacker a
        { id := a, target := pdef,
          attacks := [(AttackType.regular,
            { power := { current := S, default := Pd }, assignments := asg })],
          blockers := bs, blocked := (!true && decide (bs.length > 0)) })).get_player pdef =
      some player := by
    rw [get_player_eq_of_players _ g (by
      rw [hfold.1]
      rfl) pdef]
    exact hplayer
  rw [hgp2]
  dsimp only
  rw [u16_i16_roundtrip S (le_of_lt hS) hS2]
  have hid : ({ player with life := player.life - S } : Player).id = pdef :=
    Game.get_player_id g pdef player hplayer
  by_cases hlife : player.life - S ≤ 0
  · rw [if_pos hlife]
    exact (get_player_eq_of_players _ _ rfl pdef).trans
      (Game.get_player_setPlayer_same _ pdef player _ hgp2 hid)
  · rw [if_neg hlife]
    exact Game.get_player_setPlayer_same _ pdef player _ hgp2 hid


/-- C2: in a combat damage pass, a lone attacker with Trample whose
    declared blockers' total toughness T is less than its power P (with
    the damage auto-assigned by combat_damage_step_start) deals exactly
    P - T damage to the defending player; and an attacker without
    Trample that has at least one declared blocker deals zero damage to
    the defending player (its round leaves every player untouched)
    regardless of its remaining unassigned power. -/
theorem C2_trample_and_blocked :
    (∀ (g : Game) (a pdef : ObjectId) (P : Int) (bs : List ObjectId) (tf : ObjectId → Int)
       (acard : Card) (player : Player) (ca cc : List ObjectId),
      g.turn.combat.attackers =
        [(a, { id := a, target := pdef,
               attacks := [(AttackType.regular,
                 { power := { current := P, default := P }, assignments := [] })],
               blockers := bs, blocked := false })] →
      g.get_card a = some acard →
      acard.static_abilities.contains .trample = true →
      (∀ b ∈ bs, (match g.get_card b with
          | some blocker => blocker.state.toughness.current
          | none => 0) = tf b) →
      (∀ b ∈ bs, 0 ≤ tf b) →
      bs.Nodup →
      (bs.map tf).sum < P →
      P ≤ 32767 →
      ca.contains a = true →
      g.get_player pdef = some player →
      ∃ g1, combat_damage_step_start g = some g1 ∧
        (deal_combat_damage g1 ca cc AttackType.regular).get_player pdef =
          some { player with life := player.life - (P - (bs.map tf).sum) }) ∧
    (∀ (g : Game) (attacker_id : ObjectId) (acard : Card) (atk : Attacker)
       (ca cc : List ObjectId) (ty : AttackType),
      g.get_card attacker_id = some acard →
      acard.static_abilities.contains .trample = false →
      g.getAttacker attacker_id = some atk →
      atk.blockers ≠ [] →
      (dealOneAttacker ca cc ty g attacker_id).players = g.players) := by
  constructor
  · intro g a pdef P bs tf acard player ca cc hatk hcard htr hbt h0 hnd hsum hP hca hplayer
    obtain ⟨g1, hstart, hp1, hc1, hst1, hatk1⟩ :=
      combat_damage_step_start_single g a pdef P bs tf hatk hbt h0 hnd hsum hP
    have hsum0 : 0 ≤ (bs.map tf).sum := by
      apply List.sum_nonneg
      intro x hx
      rcases List.mem_map.mp hx with ⟨b2, hb2, rfl⟩
      exact h0 b2 hb2
    have hcard1 : g1.get_card a = some acard :=
      (get_card_eq_of_cards g1 g hc1 a).trans hcard
    have hplayer1 : g1.get_player pdef = some player :=
      (get_player_eq_of_players g1 g hp1 pdef).trans hplayer
    exact ⟨g1, hstart,
      deal_combat_damage_trample_spill g1 a pdef (P - (bs.map tf).sum) P bs
        (bs.map (fun b => (b, tf b))) acard player ca cc hatk1 hcard1 htr hca hplayer1
        (by omega) (by omega)⟩
  · intro g attacker_id acard atk ca cc ty hcard htr hatk hbl
    exact dealOneAttacker_blocked_players g attacker_id acard atk ca cc ty hcard htr hatk hbl

/-- C2, witness: the statement evaluated on gC2 (4/4 trample attacker,
    blockers of total toughness 3, so the defender takes 1) and on gC2b
    (blocked non-trample attacker, players untouched). -/
theorem C2_witness :
    (∃ g1, combat_damage_step_start gC2 = some g1 ∧
      (deal_combat_damage g1 [1] [] AttackType.regular).get_player 9 =
        some { playerC2 with life := playerC2.life - (4 - (([2, 3].map tfC2).sum)) }) ∧
    (dealOneAttacker [1] [] AttackType.regular gC2b 1).players = gC2b.players :=
  ⟨C2_trample_and_blocked.1 gC2 1 9 4 [2, 3] tfC2 cardC2a playerC2 [1] []
      rfl rfl (by decide) (by decide) (by decide) (by decide) (by decide) (by decide)
      (by decide) rfl,
   C2_trample_and_blocked.2 gC2b 1 cardC2c
      { id := 1, target := 9,
        attacks := [(.regular,
          { power := { current := 0, default := 2 }, assignments := [(2, 2)] })],
        blockers := [2], blocked := false } [1] [] AttackType.regular
      rfl (by decide) (by decide) (by decide)⟩


/-! ## Lemmas for claim C3 -/

theorem get_card_setCard_ne (g : Game) (id c : ObjectId) (card' : Card) (hc : c ≠ id) :
    (g.setCard id card').get_card c = g.get_card c := by
  unfold Game.setCard Game.get_card
  exact lookupPair_insertPair_ne _ _ _ _ hc

theorem get_card_zone_setCard (g : Game) (id : ObjectId) (card card' : Card)
    (hget : g.get_card id = some card) (hz : card'.zone = card.zone) (c : ObjectId) :
    ((g.setCard id card').get_card c).map (fun cd => cd.zone) =
      (g.get_card c).map (fun cd => cd.zone) := by
  by_cases hc : c = id
  · subst hc
    have h1 : (g.setCard c card').get_card c = some card' := by
      unfold Game.setCard Game.get_card
      exact lookupPair_insertPair_self _ _ _
    rw [h1, hget]
    simp [hz]
  · rw [get_card_setCard_ne g id c card' hc]

/-- Neither half of a blocker interaction changes any card's zone. -/
theorem dealOneBlocker_zone_frame (g : Game) (attacker_id : ObjectId) (ty : AttackType)
    (ca cc : List ObjectId) (b c : ObjectId) :
    ((dealOneBlocker g attacker_id ty ca cc b).get_card c).map (fun cd => cd.zone) =
      (g.get_card c).map (fun cd => cd.zone) := by
  unfold dealOneBlocker
  dsimp only
  rcases hgb : g.get_card b with _ | bcard
  · dsimp only
    split
    · rename_i acard hga
      split
      · exact get_card_zone_setCard g attacker_id acard _ hga (by rfl) c
      · rfl
    · rfl
  · dsimp only
    by_cases hcat : ca.contains attacker_id = true
    · simp only [hcat, if_true]
      split
      · rename_i acard2 hga2
        split
        · exact (get_card_zone_setCard _ attacker_id acard2 _ hga2 (by rfl) c).trans
            (get_card_zone_setCard g b bcard _ hgb (by rfl) c)
        · exact get_card_zone_setCard g b bcard _ hgb (by rfl) c
      · exact get_card_zone_setCard g b bcard _ hgb (by rfl) c
    · simp only [hcat, if_false]
      split
      · rename_i acard hga
        split
        · exact get_card_zone_setCard g attacker_id acard _ hga (by rfl) c
        · rfl
      · rfl

theorem deal_player_damage_cards (g : Game) (pid : ObjectId) (d : Nat) :
    (deal_player_damage g pid d).cards = g.cards := by
  unfold deal_player_damage
  dsimp only
  repeat' split
  all_goals rfl

/-- One attacker's round never changes any card's zone. -/
theorem dealOneAttacker_zone_frame (ca cc : List ObjectId) (ty : AttackType)
    (g : Game) (a c : ObjectId) :
    ((dealOneAttacker ca cc ty g a).get_card c).map (fun cd => cd.zone) =
      (g.get_card c).map (fun cd => cd.zone) := by
  unfold dealOneAttacker
  dsimp only
  have hfold : ∀ (bs : List ObjectId) (g0 : Game),
      ((bs.foldl (fun g b => dealOneBlocker g a ty ca cc b) g0).get_card c).map
        (fun cd => cd.zone) = (g0.get_card c).map (fun cd => cd.zone) := by
    intro bs
    induction bs with
    | nil => intro g0; rfl
    | cons b rest ih =>
      intro g0
      rw [List.foldl_cons, ih, dealOneBlocker_zone_frame]
  repeat' split
  all_goals
    first
    | rfl
    | exact hfold _ _
    | (rw [get_card_eq_of_cards _ _ (deal_player_damage_cards _ _ _) c]; exact hfold _ _)
    | (rw [get_card_eq_of_cards _ _ (deal_player_damage_cards _ _ _) c]; rfl)

/-- A whole damage pass never changes any card's zone: creatures move to
    the graveyard only in the batch after both passes. -/
theorem deal_combat_damage_zone_frame (g : Game) (ca cc : List ObjectId)
    (ty : AttackType) (c : ObjectId) :
    ((deal_combat_damage g ca cc ty).get_card c).map (fun cd => cd.zone) =
      (g.get_card c).map (fun cd => cd.zone) := by
  unfold deal_combat_damage
  exact foldl_preserves (fun g => ((g.get_card c).map (fun cd => cd.zone))) _
    (fun g b => dealOneAttacker_zone_frame ca cc ty g b c) _ g


/-- A blocker outside the counterattack set changes no card other than
    itself (it deals no damage back to the attacker). -/
theorem dealOneBlocker_counter_gated (g : Game) (att : ObjectId) (ty : AttackType)
    (ca cc : List ObjectId) (b : ObjectId) (hcc : cc.contains b = false)
    (c : ObjectId) (hc : c ≠ b) :
    (dealOneBlocker g att ty ca cc b).get_card c = g.get_card c := by
  unfold dealOneBlocker
  dsimp only
  rcases hgb : g.get_card b with _ | bcard
  · dsimp only
    split
    · rw [if_neg (by simpa using hcc)]
    · rfl
  · dsimp only
    by_cases hcat : ca.contains att = true
    · simp only [hcat, if_true]
      split
      · rw [if_neg (by simpa using hcc)]
        exact get_card_setCard_ne g b c _ hc
      · exact get_card_setCard_ne g b c _ hc
    · rw [if_neg hcat]
      split
      · rw [if_neg (by simpa using hcc)]
      · rfl

/-- When the attacker is outside the attack set, a blocker interaction
    changes no card other than the attacker (the blocker takes nothing). -/
theorem dealOneBlocker_attack_gated (g : Game) (att : ObjectId) (ty : AttackType)
    (ca cc : List ObjectId) (b : ObjectId) (hca : ca.contains att = false)
    (c : ObjectId) (hc : c ≠ att) :
    (dealOneBlocker g att ty ca cc b).get_card c = g.get_card c := by
  unfold dealOneBlocker
  dsimp only
  rcases hgb : g.get_card b with _ | bcard
  · dsimp only
    split
    · split
      · exact get_card_setCard_ne g att c _ hc
      · rfl
    · rfl
  · dsimp only
    rw [if_neg (by simpa using hca)]
    split
    · split
      · exact get_card_setCard_ne g att c _ hc
      · rfl
    · rfl

/-- An attacker outside the attack set deals no damage in a pass: the
    players are untouched and no card but the attacker itself changes. -/
theorem dealOneAttacker_excluded (g : Game) (a : ObjectId) (ca cc : List ObjectId)
    (ty : AttackType) (hca : ca.contains a = false) :
    (dealOneAttacker ca cc ty g a).players = g.players ∧
    (∀ c, c ≠ a → (dealOneAttacker ca cc ty g a).get_card c = g.get_card c) := by
  have hfoldP : ∀ (bs : List ObjectId) (g0 : Game),
      (bs.foldl (fun g b => dealOneBlocker g a ty ca cc b) g0).players = g0.players :=
    fun bs g0 => foldl_preserves (fun g => g.players) _
      (fun g b => (dealOneBlocker_frame g a ty ca cc b).1) bs g0
  have hfoldC : ∀ (bs : List ObjectId) (g0 : Game) (c : ObjectId), c ≠ a →
      (bs.foldl (fun g b => dealOneBlocker g a ty ca cc b) g0).get_card c =
        g0.get_card c := by
    intro bs
    induction bs with
    | nil => intro g0 c hc; rfl
    | cons b rest ih =>
      intro g0 c hc
      rw [List.foldl_cons, ih _ c hc, dealOneBlocker_attack_gated g0 a ty ca cc b hca c hc]
  have hca2 : a ∉ ca := by simpa using hca
  constructor
  · unfold dealOneAttacker
    dsimp only
    repeat' split
    all_goals first
      | (rename_i hcond; simp [hca2] at hcond)
      | exact hfoldP _ _
      | rfl
      | simp_all [hca2]
  · intro c hc
    unfold dealOneAttacker
    dsimp only
    repeat' split
    all_goals first
      | (rename_i hcond; simp [hca2] at hcond)
      | exact hfoldC _ _ c hc
      | rfl
      | simp_all [hca2]


/-- C3: after the first-strike pass of combat_damage_step_end, the
    regular pass runs with participation lists filtered by is_alive on
    the post-first-strike state (first conjunct exhibits that call
    structure; the second shows a creature with toughness 0 or less -
    is_alive false - is excluded by the filter); an excluded creature
    deals zero damage in the regular pass (fourth conjunct: an attacker
    outside the attack set touches no player and no card but itself;
    fifth: a blocker outside the counterattack set touches no card but
    itself); and a damage pass never changes any card's zone (third
    conjunct), so creatures are moved to the graveyard only in the batch
    collection after both passes complete. -/
theorem C3_first_strike_exclusion :
    (∀ (g g0 : Game), is_combat_damage_assigned g = (true, g0) →
      combat_damage_step_end g =
        (let g1 := deal_combat_damage g0
            (split_first_strike g0 g0.turn.combat.get_attackers).1
            (split_first_strike g0 g0.turn.combat.get_blockers).1 AttackType.firstStrike
         let g2 := deal_combat_damage g1
            ((split_first_strike g0 g0.turn.combat.get_attackers).2.filter
              (fun id => is_alive g1 id))
            ((split_first_strike g0 g0.turn.combat.get_blockers).2.filter
              (fun id => is_alive g1 id)) AttackType.regular
         (g2.turn.combat.attackers.foldl (fun acc p =>
            (if is_alive g2 p.2.id then acc else acc ++ [p.2.id]) ++
              p.2.blockers.filter (fun b => !is_alive g2 b)) []).foldl
           (fun g card_id => put_on_graveyard g card_id) g2)) ∧
    (∀ (g1 : Game) (l : List ObjectId) (c : ObjectId),
      is_alive g1 c = false → c ∉ l.filter (fun id => is_alive g1 id)) ∧
    (∀ (g : Game) (ca cc : List ObjectId) (ty : AttackType) (c : ObjectId),
      ((deal_combat_damage g ca cc ty).get_card c).map (fun cd => cd.zone) =
        (g.get_card c).map (fun cd => cd.zone)) ∧
    (∀ (g : Game) (a : ObjectId) (ca cc : List ObjectId) (ty : AttackType),
      ca.contains a = false →
      (dealOneAttacker ca cc ty g a).players = g.players ∧
      (∀ c, c ≠ a → (dealOneAttacker ca cc ty g a).get_card c = g.get_card c)) ∧
    (∀ (g : Game) (att : ObjectId) (ty : AttackType) (ca cc : List ObjectId)
       (b : ObjectId),
      cc.contains b = false →
      ∀ c, c ≠ b → (dealOneBlocker g att ty ca cc b).get_card c = g.get_card c) := by
  refine ⟨?_, ?_, ?_, ?_, ?_⟩
  · intro g g0 h
    unfold combat_damage_step_end
    rw [h]
  · intro g1 l c h hmem
    rcases List.mem_filter.mp hmem with ⟨_, h2⟩
    rw [h] at h2
    exact Bool.noConfusion h2
  · intro g ca cc ty c
    exact deal_combat_damage_zone_frame g ca cc ty c
  · intro g a ca cc ty hca
    exact dealOneAttacker_excluded g a ca cc ty hca
  · intro g att ty ca cc b hcc c hc
    exact dealOneBlocker_counter_gated g att ty ca cc b hcc c hc

/-- C3, witness: the statement evaluated on the combat state gC2b. -/
theorem C3_witness :
    (combat_damage_step_end gC2b =
      (let g1 := deal_combat_damage g0C3
          (split_first_strike g0C3 g0C3.turn.combat.get_attackers).1
          (split_first_strike g0C3 g0C3.turn.combat.get_blockers).1 AttackType.firstStrike
       let g2 := deal_combat_damage g1
          ((split_first_strike g0C3 g0C3.turn.combat.get_attackers).2.filter
            (fun id => is_alive g1 id))
          ((split_first_strike g0C3 g0C3.turn.combat.get_blockers).2.filter
            (fun id => is_alive g1 id)) AttackType.regular
       (g2.turn.combat.attackers.foldl (fun acc p =>
          (if is_alive g2 p.2.id then acc else acc ++ [p.2.id]) ++
            p.2.blockers.filter (fun b => !is_alive g2 b)) []).foldl
         (fun g card_id => put_on_graveyard g card_id) g2)) ∧
    (99 ∉ [99, 1].filter (fun id => is_alive gC2b id)) ∧
    (((deal_combat_damage gC2b [1] [] AttackType.regular).get_card 2).map
        (fun cd => cd.zone) = (gC2b.get_card 2).map (fun cd => cd.zone)) ∧
    ((dealOneAttacker [] [] AttackType.regular gC2b 1).players = gC2b.players ∧
      (∀ c, c ≠ 1 →
        (dealOneAttacker [] [] AttackType.regular gC2b 1).get_card c = gC2b.get_card c)) ∧
    (∀ c, c ≠ 2 →
      (dealOneBlocker gC2b 1 AttackType.regular [1] [] 2).get_card c = gC2b.get_card c) :=
  ⟨C3_first_strike_exclusion.1 gC2b g0C3 (by decide),
   C3_first_strike_exclusion.2.1 gC2b [99, 1] 99 (by decide),
   C3_first_strike_exclusion.2.2.1 gC2b [1] [] AttackType.regular 2,
   C3_first_strike_exclusion.2.2.2.1 gC2b 1 [] [] AttackType.regular (by decide),
   C3_first_strike_exclusion.2.2.2.2 gC2b 1 AttackType.regular [1] [] 2 (by decide)⟩


end Magic
